import Mathlib

/-!
Verification of the E-Search scraper core against its specification.

The definitions below are a shallow embedding of the Python code under
`backend/scrapers/`:
  * `utils/normalizers.py`  — the pure normalization library,
  * `crawlers/static.py` and `crawlers/stealth.py` — fetch decision and
    rate-limit wait computations,
  * `base.py` — `ScrapeResult.to_dict`, location parsing/caching/resolution,
    `normalize_listing`, `save_listing`, and the orchestrating `run`.

Strings are modelled by Lean `String` (a list of characters); Python's
ASCII-range `lower`/`upper`/`strip`/`title` are reproduced character by
character.  Regular expressions from the source are compiled by hand into
deterministic scanners that reproduce the leftmost-match semantics of the
anchored patterns actually used.  Database state is modelled as explicit
lists of rows with per-table id counters; SQLAlchemy flush/commit are
no-ops in this single-session model.
-/

namespace ESearch

/-- Python `str` whitespace (ASCII range), as used by `strip`/`split` and `\s`. -/
def isPySpace (c : Char) : Bool :=
  c = ' ' || c = '\t' || c = '\n' || c = '\r' || c = '\x0b' || c = '\x0c'

/-- Python `str.strip()` on a character list. -/
def pyStripChars (l : List Char) : List Char :=
  ((l.dropWhile isPySpace).reverse.dropWhile isPySpace).reverse

/-- Python `str.strip()`. -/
def pyStrip (s : String) : String := ⟨pyStripChars s.data⟩

/-- Python `str.lower()` (ASCII letters; source data is ASCII). -/
def lowerStr (s : String) : String := ⟨s.data.map Char.toLower⟩

/-- Python `str.upper()` (ASCII letters). -/
def upperStr (s : String) : String := ⟨s.data.map Char.toUpper⟩

/-- Worker for Python `str.title()`: uppercase a letter that follows a
non-letter, lowercase a letter that follows a letter. -/
def pyTitleChars : List Char → Bool → List Char
  | [], _ => []
  | c :: cs, prevAlpha =>
    (if c.isAlpha then (if prevAlpha then c.toLower else c.toUpper) else c)
      :: pyTitleChars cs c.isAlpha

/-- Python `str.title()`. -/
def pyTitle (s : String) : String := ⟨pyTitleChars s.data false⟩

/-- Python `str.capitalize()`: first character uppercased, rest lowercased. -/
def pyCapitalize (s : String) : String :=
  match s.data with
  | [] => ""
  | c :: cs => ⟨c.toUpper :: cs.map Char.toLower⟩

/-- Worker for Python `str.split()` with no argument (split on whitespace
runs, dropping empty fields).  Fuel is the length of the list. -/
def wordsGo : Nat → List Char → List (List Char)
  | 0, _ => []
  | fuel + 1, l =>
    let l1 := l.dropWhile isPySpace
    match l1 with
    | [] => []
    | _ :: _ =>
      l1.takeWhile (fun c => !isPySpace c)
        :: wordsGo fuel (l1.dropWhile (fun c => !isPySpace c))

/-- Python `str.split()` with no argument. -/
def pySplitWs (s : String) : List String :=
  (wordsGo s.data.length s.data).map (fun w => (⟨w⟩ : String))

/-- Substring test on character lists (Python `needle in haystack`). -/
def containsSub (n : List Char) : List Char → Bool
  | [] => n.isPrefixOf []
  | c :: cs => n.isPrefixOf (c :: cs) || containsSub n cs

/-- Python `needle in hay` for strings. -/
def strContains (hay needle : String) : Bool := containsSub needle.data hay.data

/-- Match, at the current position, the pattern `\s*SEP\s*` (one literal
separator character with optional surrounding whitespace); on success
return the remainder of the input after the match. -/
def matchSepAt (sep : Char) (l : List Char) : Option (List Char) :=
  match l.dropWhile isPySpace with
  | c :: r => if c = sep then some (r.dropWhile isPySpace) else none
  | [] => none

/-- Worker for `re.sub(r'\s*SEP\s*', OUT, s)`: scan left to right, replacing
each leftmost match by `out` and otherwise copying one character.  Fuel is
the length of the input. -/
def sepCollapseGo (sep : Char) (out : List Char) : Nat → List Char → List Char
  | 0, l => l
  | fuel + 1, l =>
    match matchSepAt sep l with
    | some r => out ++ sepCollapseGo sep out fuel r
    | none =>
      match l with
      | [] => []
      | c :: cs => c :: sepCollapseGo sep out fuel cs

/-- `re.sub(r'\s*SEP\s*', OUT, s)` for a literal one-character separator. -/
def sepCollapse (sep : Char) (out : List Char) (l : List Char) : List Char :=
  sepCollapseGo sep out l.length l

/-- `re.sub(r'\s*-\s*', '-', s)` from `normalize_measurements`. -/
def collapseDashSpaces (l : List Char) : List Char := sepCollapse '-' ['-'] l

/-- `re.sub(r'^(\d+)\s+([A-Z]+)', r'\1\2', s, flags=re.IGNORECASE)` from
`normalize_measurements`: drop the whitespace between a leading digit run
and the letter run that follows it. -/
def stripBustSpace (l : List Char) : List Char :=
  let d := l.takeWhile Char.isDigit
  let r1 := l.dropWhile Char.isDigit
  let sp := r1.takeWhile isPySpace
  let r2 := r1.dropWhile isPySpace
  let letters := r2.takeWhile Char.isAlpha
  let rest := r2.dropWhile Char.isAlpha
  if d.isEmpty || sp.isEmpty || letters.isEmpty then l else d ++ letters ++ rest

/-- `re.match(r'^(\d+)([A-Z]+)-(\d+)-(\d+)$', s, re.IGNORECASE)`:
bust digits, cup letters, dash, waist digits, dash, hip digits, end. -/
def parseTriple (l : List Char) : Option (List Char × List Char × List Char × List Char) :=
  let b := l.takeWhile Char.isDigit
  let r1 := l.dropWhile Char.isDigit
  let cup := r1.takeWhile Char.isAlpha
  let r2 := r1.dropWhile Char.isAlpha
  if b.isEmpty || cup.isEmpty then none else
  match r2 with
  | '-' :: r3 =>
    let w := r3.takeWhile Char.isDigit
    let r4 := r3.dropWhile Char.isDigit
    if w.isEmpty then none else
    match r4 with
    | '-' :: r5 =>
      let h := r5.takeWhile Char.isDigit
      let r6 := r5.dropWhile Char.isDigit
      if h.isEmpty || !r6.isEmpty then none else some (b, cup, w, h)
    | _ => none
  | _ => none

/-- Exactly four digits. -/
def isFourDigits (l : List Char) : Bool :=
  match l with
  | [a, b, c, d] => a.isDigit && b.isDigit && c.isDigit && d.isDigit
  | _ => false

/-- `re.match(r'^(\d{2})([A-Z]+)[-\s]?(\d{2})(\d{2})$', s, re.IGNORECASE)`:
the compact run-together measurements form. -/
def parseCompact (l : List Char) : Option (List Char × List Char × List Char × List Char) :=
  match l with
  | d1 :: d2 :: r =>
    if d1.isDigit && d2.isDigit then
      let cup := r.takeWhile Char.isAlpha
      let r2 := r.dropWhile Char.isAlpha
      if cup.isEmpty then none else
      match r2 with
      | c :: r3 =>
        if (c = '-' || isPySpace c) && isFourDigits r3 then
          some ([d1, d2], cup, r3.take 2, r3.drop 2)
        else if isFourDigits r2 then
          some ([d1, d2], cup, r2.take 2, r2.drop 2)
        else none
      | [] => none
    else none
  | _ => none

/-- `normalizers.normalize_name`. -/
def normalize_name (name : String) : String :=
  if name = "" then name else pyTitle (pyStrip name)

/-- The tier lookup table of `normalizers.normalize_tier`. -/
def tierMap : List (String × String) :=
  [("ELITE", "Elite"), ("VIP", "VIP"), ("ULTRA VIP", "Ultra VIP"),
   ("PLATINUM VIP", "Platinum VIP")]

/-- `normalizers.normalize_tier`. -/
def normalize_tier (tier : String) : Option String :=
  if tier = "" then none else
  let t := upperStr (pyStrip tier)
  match (tierMap.find? (fun p => p.1 = t)).map (fun p => p.2) with
  | some v => some v
  | none => some (pyTitle t)

/-- Match `(\d+)\s*kg` (IGNORECASE) at the current position, returning the
digit group. -/
def matchDigitsKgAt (l : List Char) : Option (List Char) :=
  let d := l.takeWhile Char.isDigit
  if d.isEmpty then none
  else
    match (l.dropWhile Char.isDigit).dropWhile isPySpace with
    | k :: g :: _ => if k.toLower = 'k' && g.toLower = 'g' then some d else none
    | _ => none

/-- `re.search(r'(\d+)\s*kg', s, re.IGNORECASE)`: leftmost match. -/
def searchDigitsKg : List Char → Option (List Char)
  | [] => none
  | c :: cs =>
    match matchDigitsKgAt (c :: cs) with
    | some d => some d
    | none => searchDigitsKg cs

/-- `re.search(r'(\d+)\s*(?:lbs?|pounds?)?', s, re.IGNORECASE)`: the optional
suffix never constrains the match, so this is the first maximal digit run. -/
def searchDigits : List Char → Option (List Char)
  | [] => none
  | c :: cs => if c.isDigit then some ((c :: cs).takeWhile Char.isDigit) else searchDigits cs

/-- Numeric value of a digit run. -/
def digitsToNat (l : List Char) : Nat := l.foldl (fun n c => 10 * n + (c.toNat - 48)) 0

/-- Python `round()` (banker's rounding, half to even). -/
def roundHalfEven (q : ℚ) : ℤ :=
  let f := ⌊q⌋
  let r := q - f
  if r < 1 / 2 then f else if 1 / 2 < r then f + 1 else if f % 2 = 0 then f else f + 1

/-- `normalizers.normalize_weight`. -/
def normalize_weight (w : String) : Option String :=
  if w = "" then none else
  let t := pyStrip w
  if strContains (lowerStr t) "kg" then
    match searchDigitsKg t.data with
    | some d => some ((⟨d⟩ : String) ++ " kg")
    | none => some t
  else
    match searchDigits t.data with
    | some d =>
      some (toString (roundHalfEven ((digitsToNat d : ℚ) * (453592 / 1000000))) ++ " kg")
    | none => some t

/-- Does `\s*cm` (IGNORECASE) match here?  Used by the height cm pattern. -/
def cmTail (l : List Char) : Bool :=
  match l.dropWhile isPySpace with
  | x :: y :: _ => x.toLower = 'c' && y.toLower = 'm'
  | _ => false

/-- Match `(\d{2,3})\s*cm` at the current position (greedy: three digits
tried before two). -/
def matchCmAt (l : List Char) : Option (List Char) :=
  match l with
  | a :: b :: rest =>
    if a.isDigit && b.isDigit then
      match rest with
      | c :: r2 =>
        if c.isDigit && cmTail r2 then some [a, b, c]
        else if cmTail rest then some [a, b] else none
      | [] => none
    else none
  | _ => none

/-- `re.search(r'(\d{2,3})\s*cm', s, re.IGNORECASE)`. -/
def searchCm : List Char → Option (List Char)
  | [] => none
  | c :: cs =>
    match matchCmAt (c :: cs) with
    | some d => some d
    | none => searchCm cs

/-- The separator class of the feet/inches height pattern:
the nine quote-like and comma characters of the source pattern. -/
def isFtSep (c : Char) : Bool :=
  c = '\u2019' || c = '\u2018' || c = '\u0027' || c = '\u2032' ||
  c = '\u0060' || c = '\u00b4' || c = '\u2033' || c = '"' || c = ','

/-- Match `(\d+)[seps]+(\d+)` at the current position. -/
def matchFtInAt (l : List Char) : Option (List Char × List Char) :=
  let d := l.takeWhile Char.isDigit
  if d.isEmpty then none else
  let r1 := l.dropWhile Char.isDigit
  let s := r1.takeWhile isFtSep
  if s.isEmpty then none else
  let r2 := r1.dropWhile isFtSep
  let i := r2.takeWhile Char.isDigit
  if i.isEmpty then none else some (d, i)

/-- `re.search` for the feet/inches pattern: leftmost match. -/
def searchFtIn : List Char → Option (List Char × List Char)
  | [] => none
  | c :: cs =>
    match matchFtInAt (c :: cs) with
    | some p => some p
    | none => searchFtIn cs

/-- `normalizers.normalize_height`. -/
def normalize_height (h : String) : Option String :=
  if h = "" then none else
  let t := pyStrip h
  match searchCm t.data with
  | some d => some ((⟨d⟩ : String) ++ " cm")
  | none =>
    match searchFtIn t.data with
    | some (f, i) => some (⟨f ++ '\u0027' :: i⟩ : String)
    | none => some t

/-- The unconditional cleanup steps of `normalize_measurements`, in source
order: strip, replace slashes by dashes, remove whitespace around dashes,
remove the whitespace between a leading bust number and its cup letters. -/
def measurementsCleanup (s : String) : List Char :=
  stripBustSpace (collapseDashSpaces
    ((pyStripChars s.data).map (fun c => if c = '/' then '-' else c)))

/-- `normalizers.normalize_measurements`. -/
def normalize_measurements (s : String) : Option String :=
  if s = "" then none else
  let m3 := measurementsCleanup s
  match parseTriple m3 with
  | some (b, cup, w, h) => some ⟨b ++ cup.map Char.toUpper ++ '-' :: w ++ '-' :: h⟩
  | none =>
    match parseCompact m3 with
    | some (b, cup, w, h) => some ⟨b ++ cup.map Char.toUpper ++ '-' :: w ++ '-' :: h⟩
    | none => some ⟨m3⟩

/-- `normalizers.normalize_bust_size`. -/
def normalize_bust_size (s : String) : Option String :=
  if s = "" then none else
  let b := upperStr (pyStrip s)
  let d := b.data.takeWhile Char.isDigit
  let r1 := b.data.dropWhile Char.isDigit
  let sp := r1.takeWhile isPySpace
  let r2 := r1.dropWhile isPySpace
  let letters := r2.takeWhile Char.isAlpha
  let rest := r2.dropWhile Char.isAlpha
  if !d.isEmpty && !sp.isEmpty && !letters.isEmpty && rest.isEmpty then some b
  else if !d.isEmpty && sp.isEmpty && !letters.isEmpty && rest.isEmpty then
    some ⟨d ++ ' ' :: letters⟩
  else some b

/-- Worker for `re.sub(r'\s+', ' ', s)`: collapse whitespace runs to a single
space (structurally, tracking whether the previous character was space). -/
def collapseWsFlag : List Char → Bool → List Char
  | [], _ => []
  | c :: cs, prevSp =>
    if isPySpace c then
      (if prevSp then collapseWsFlag cs true else ' ' :: collapseWsFlag cs true)
    else c :: collapseWsFlag cs false

/-- `normalizers.normalize_service_type`. -/
def normalize_service_type (s : String) : Option String :=
  if s = "" then none else
  let sv := upperStr (pyStrip s)
  let sv2 : String := ⟨collapseWsFlag sv.data false⟩
  if sv2 = "GF ENTERTAINER" then some "GFE" else some sv2

/-- `normalizers.normalize_color`. -/
def normalize_color (s : String) : Option String :=
  if s = "" then none else
  let c := pyStrip s
  some (pyTitle ⟨sepCollapse '/' ['/'] c.data⟩)

/-! ## Transport layer: `crawlers/static.py` and `crawlers/stealth.py` -/

/-- One HTTP response as observed inside `StaticCrawler.fetch`. -/
structure HttpResponse where
  status : Nat
  body : String
deriving DecidableEq

/-- Outcome of a single attempt of the retry loop: either a response was
received, or the request itself failed with a transport error. -/
inductive AttemptOutcome where
  | response (resp : HttpResponse)
  | netError (msg : String)

/-- The per-response decision of `StaticCrawler.fetch`: a status of 400 or
more is an error unless the body is longer than 1000 characters and
contains `<html` case-insensitively, in which case the body is returned
anyway; any status below 400 returns the body. -/
def staticFetchDecision (resp : HttpResponse) : Except String String :=
  if 400 ≤ resp.status then
    if resp.body.length > 1000 && strContains (lowerStr resp.body) "<html" then
      Except.ok resp.body
    else Except.error ("HTTP status " ++ toString resp.status)
  else Except.ok resp.body

/-- Result of one attempt (`client.get` plus the status decision). -/
def attemptResult : AttemptOutcome → Except String String
  | AttemptOutcome.response r => staticFetchDecision r
  | AttemptOutcome.netError m => Except.error m

/-- The retry loop of `StaticCrawler.fetch`, given the outcome of each of
its at most `max_retries` attempts: the first successful attempt returns
its body; otherwise the last error is raised. -/
def staticFetch : List AttemptOutcome → Except String String
  | [] => Except.error "no attempts"
  | o :: rest =>
    match attemptResult o with
    | Except.ok b => Except.ok b
    | Except.error e =>
      match rest with
      | [] => Except.error e
      | _ :: _ => staticFetch rest

/-- `StaticCrawler._wait_for_rate_limit`: the sleep performed before a
request, given the configured interval and the time elapsed since the
previous request on the same instance. -/
def waitStatic (rateLimit elapsed : ℚ) : ℚ :=
  if elapsed < rateLimit then rateLimit - elapsed else 0

/-- `StealthCrawler._wait_for_rate_limit`: as above but with a random
human-like extra delay `r` drawn from `[0, 0.3]`. -/
def waitStealth (rateLimit elapsed r : ℚ) : ℚ :=
  let w := rateLimit - elapsed + r
  if 0 < w then w else 0

/-! ## `ScrapeResult` and its reporting shape (`base.py`) -/

/-- One entry of `ScrapeResult.error_details`: the per-profile handler
records `{'profile_url': ..., 'error': ...}`, the run-level handler
records `{'error': ...}` with no profile url. -/
structure ErrorDetail where
  profileUrl : Option String
  error : String
deriving DecidableEq

/-- `base.ScrapeResult` (timestamps abstracted to naturals). -/
structure ScrapeResult where
  source : String
  startedAt : Nat
  completedAt : Option Nat := none
  total : Nat := 0
  new : Nat := 0
  updated : Nat := 0
  errors : Nat := 0
  errorDetails : List ErrorDetail := []
deriving DecidableEq

/-- `ScrapeResult.success`. -/
def ScrapeResult.success (r : ScrapeResult) : Bool := r.errors == 0

/-- `ScrapeResult.duration_seconds`. -/
def ScrapeResult.durationSeconds (r : ScrapeResult) : Option Int :=
  match r.completedAt with
  | some c => some ((c : Int) - (r.startedAt : Int))
  | none => none

/-- The dictionary emitted by `ScrapeResult.to_dict` to the reporting
layer. -/
structure ScrapeResultDict where
  source : String
  started_at : Nat
  completed_at : Option Nat
  duration_seconds : Option Int
  total : Nat
  new : Nat
  updated : Nat
  errors : Nat
  error_details : List ErrorDetail
  success : Bool

/-- `ScrapeResult.to_dict`: note the `[:10]` cap on `error_details`. -/
def ScrapeResult.to_dict (r : ScrapeResult) : ScrapeResultDict :=
  { source := r.source
    started_at := r.startedAt
    completed_at := r.completedAt
    duration_seconds := r.durationSeconds
    total := r.total
    new := r.new
    updated := r.updated
    errors := r.errors
    error_details := r.errorDetails.take 10
    success := r.success }

/-! ## Persistent data model (`api/database.py` rows touched by `base.py`) -/

/-- `Source` row. -/
structure SourceRow where
  id : Nat
  name : String
deriving DecidableEq

/-- `Location` row (fields used by the scraper). -/
structure LocationRow where
  id : Nat
  sourceId : Nat
  town : String
  location : String
  isDefault : Bool
deriving DecidableEq

/-- `Listing` row (fields written by `save_listing`). -/
structure ListingRow where
  id : Nat
  sourceId : Nat
  name : String
  profileUrl : String
  tier : Option String := none
  age : Option Int := none
  nationality : Option String := none
  ethnicity : Option String := none
  height : Option String := none
  weight : Option String := none
  bust : Option String := none
  bustType : Option String := none
  measurements : Option String := none
  hairColor : Option String := none
  eyeColor : Option String := none
  serviceType : Option String := none
  images : Option String := none
  isActive : Bool := true
  isExpired : Bool := false
  incall30min : Option String := none
  incall45min : Option String := none
  incall1hr : Option String := none
  outcall1hr : Option String := none
  minBooking : Option String := none
deriving DecidableEq

/-- `Schedule` row. -/
structure ScheduleRow where
  id : Nat
  listingId : Nat
  dayOfWeek : Option String
  date : Option Nat
  locationId : Option Nat
  startTime : Option String
  endTime : Option String
deriving DecidableEq

/-- `Tag` row. -/
structure TagRow where
  id : Nat
  name : String
deriving DecidableEq

/-- The database session state: row lists plus per-table autoincrement
counters (SQLAlchemy assigns ids at flush; flush/commit are otherwise
no-ops in this single-session model). -/
structure Store where
  sources : List SourceRow := []
  listings : List ListingRow := []
  schedules : List ScheduleRow := []
  locations : List LocationRow := []
  tags : List TagRow := []
  listingTags : List (Nat × Nat) := []
  nextSourceId : Nat := 1
  nextListingId : Nat := 1
  nextScheduleId : Nat := 1
  nextLocationId : Nat := 1
  nextTagId : Nat := 1
deriving DecidableEq

/-! ## Ephemeral scraper data (`base.py` dataclasses) -/

/-- `base.ScheduleItem`. -/
structure ScheduleItem where
  name : String
  profileUrl : String
  dayOfWeek : String
  location : Option String := none
  startTime : Option String := none
  endTime : Option String := none
  tier : Option String := none
deriving DecidableEq

/-- One element of `ScrapedListing.schedules` (the dict built by
`normalize_listing` with keys day_of_week / location / start_time /
end_time). -/
structure ScheduleEntry where
  dayOfWeek : Option String := none
  location : Option String := none
  startTime : Option String := none
  endTime : Option String := none
deriving DecidableEq

/-- The profile dict returned by `scrape_profile`, restricted to the keys
read by the base `normalize_listing` (`raw_data` is debugging only and is
dropped). -/
structure ProfileData where
  name : Option String := none
  tier : Option String := none
  age : Option Int := none
  nationality : Option String := none
  ethnicity : Option String := none
  height : Option String := none
  weight : Option String := none
  bust : Option String := none
  bustType : Option String := none
  measurements : Option String := none
  hairColor : Option String := none
  eyeColor : Option String := none
  serviceType : Option String := none
  images : List String := []
  tags : List String := []
deriving DecidableEq

/-- `base.ScrapedListing`. -/
structure ScrapedListing where
  name : String
  profileUrl : String
  source : String
  schedules : List ScheduleEntry := []
  tier : Option String := none
  age : Option Int := none
  nationality : Option String := none
  ethnicity : Option String := none
  height : Option String := none
  weight : Option String := none
  bust : Option String := none
  bustType : Option String := none
  measurements : Option String := none
  hairColor : Option String := none
  eyeColor : Option String := none
  serviceType : Option String := none
  incall30min : Option String := none
  incall45min : Option String := none
  incall1hr : Option String := none
  outcall1hr : Option String := none
  minBooking : Option String := none
  images : List String := []
  tags : List String := []
deriving DecidableEq

/-- `base.SiteConfig` (the fields `save_listing`/`run` read). -/
structure SiteConfig where
  name : String
  shortName : String
  scheduleUrl : String := ""
  baseUrl : String := ""
  imageBaseUrl : Option String := none
  rateLimitSeconds : ℚ := 1
  enabled : Bool := true

/-- Python `a or b` on optional strings (an empty string is falsy). -/
def pyOrStr : Option String → Option String → Option String
  | some s, b => if s = "" then b else some s
  | none, b => b

/-- `BaseScraper.normalize_listing`: the base implementation.  The
schedule-page tier takes precedence over the profile tier via Python
`or`; the name prefers the profile value when truthy. -/
def normalize_listing (shortName : String) (schedule_item : ScheduleItem)
    (profile_data : ProfileData) (all_schedule_items : Option (List ScheduleItem)) :
    ScrapedListing :=
  let allItems := all_schedule_items.getD [schedule_item]
  let tier := pyOrStr schedule_item.tier profile_data.tier
  let schedules := allItems.map (fun it =>
    ({ dayOfWeek := some it.dayOfWeek, location := it.location,
       startTime := it.startTime, endTime := it.endTime } : ScheduleEntry))
  let name := match profile_data.name with
    | some n => if n = "" then schedule_item.name else n
    | none => schedule_item.name
  { name := name
    profileUrl := schedule_item.profileUrl
    source := shortName
    tier := tier
    age := profile_data.age
    nationality := profile_data.nationality
    ethnicity := profile_data.ethnicity
    height := profile_data.height
    weight := profile_data.weight
    bust := profile_data.bust
    bustType := profile_data.bustType
    measurements := profile_data.measurements
    hairColor := profile_data.hairColor
    eyeColor := profile_data.eyeColor
    serviceType := profile_data.serviceType
    images := profile_data.images
    tags := profile_data.tags
    schedules := schedules }

/-! ## Location parsing and resolution (`config.KNOWN_TOWNS`, `base.py`) -/

/-- `scrapers.config.KNOWN_TOWNS`. -/
def KNOWN_TOWNS : List String :=
  ["Vaughan", "Midtown", "Downtown", "Etobicoke", "Oakville",
   "Mississauga", "Brampton", "North York", "Scarborough",
   "Markham", "Richmond Hill", "Ajax", "Pickering", "Whitby",
   "Oshawa", "Burlington", "Hamilton", "Milton", "Newmarket",
   "Aurora", "King City", "Woodbridge", "Thornhill", "Concord"]

/-- `sorted(KNOWN_TOWNS, key=len, reverse=True)`: longest names first.
Ties are broken by set iteration order in the source; since two distinct
towns of equal length can never both prefix the same string, any tie
order gives the same parse. -/
def KNOWN_TOWNS_BY_LEN : List String :=
  ["Richmond Hill", "Mississauga", "Scarborough", "North York",
   "Burlington", "Woodbridge", "Etobicoke", "Pickering", "Newmarket",
   "King City", "Thornhill", "Downtown", "Oakville", "Brampton",
   "Hamilton", "Vaughan", "Midtown", "Markham", "Concord",
   "Whitby", "Oshawa", "Milton", "Aurora", "Ajax"]

/-- `BaseScraper._parse_sft_location_fallback`: match a known town as a
case-insensitive prefix (longest first), the stripped remainder is the
detail; otherwise the whole string is the town and the detail is
"unknown". -/
def parse_sft_location_fallback (location_str : String) : String × String :=
  let s := pyStrip location_str
  let low := lowerStr s
  match KNOWN_TOWNS_BY_LEN.find? (fun t => (lowerStr t).data.isPrefixOf low.data) with
  | some town =>
    let part := pyStrip ⟨(s.data.drop town.length).dropWhile (fun c => c = ' ')⟩
    (town, if part = "" then "unknown" else part)
  | none => (s, "unknown")

/-- Does `\s*\([^)]+\)\s*$` match at the current position? -/
def parenTailMatch (l : List Char) : Bool :=
  match l.dropWhile isPySpace with
  | '(' :: r =>
    let inner := r.takeWhile (fun c => c ≠ ')')
    (match r.dropWhile (fun c => c ≠ ')') with
     | ')' :: rest => !inner.isEmpty && (rest.dropWhile isPySpace).isEmpty
     | _ => false)
  | _ => false

/-- `re.sub(r'\s*\([^)]+\)\s*$', '', s)`: cut at the leftmost position
where a parenthesized suffix extends to the end of the string. -/
def removeParenSuffix : List Char → List Char
  | [] => []
  | c :: cs => if parenTailMatch (c :: cs) then [] else c :: removeParenSuffix cs

/-- `re.sub(r'^NEAR\s+', '', s, flags=re.IGNORECASE)`. -/
def dropNearMarker (l : List Char) : List Char :=
  match l with
  | c1 :: c2 :: c3 :: c4 :: rest =>
    if c1.toLower = 'n' && c2.toLower = 'e' && c3.toLower = 'a' && c4.toLower = 'r' &&
        (match rest with | c :: _ => isPySpace c | [] => false) then
      rest.dropWhile isPySpace
    else l
  | _ => l

/-- `' '.join(s.split())`. -/
def joinSplitWs (s : String) : String := String.intercalate " " (pySplitWs s)

/-- Match `HWY\s*(\d+)` (IGNORECASE) at the current position, returning the
digit group and the rest of the input. -/
def hwyMatchAt (l : List Char) : Option (List Char × List Char) :=
  match l with
  | a :: b :: c :: rest =>
    if a.toLower = 'h' && b.toLower = 'w' && c.toLower = 'y' then
      let r2 := rest.dropWhile isPySpace
      let d := r2.takeWhile Char.isDigit
      if d.isEmpty then none else some (d, r2.dropWhile Char.isDigit)
    else none
  | _ => none

/-- Worker for `re.sub(r'HWY\s*(\d+)', r'HWY-\1', s, flags=re.IGNORECASE)`. -/
def hwySubGo : Nat → List Char → List Char
  | 0, l => l
  | fuel + 1, l =>
    match l with
    | [] => []
    | c :: cs =>
      match hwyMatchAt (c :: cs) with
      | some (d, rest) => 'H' :: 'W' :: 'Y' :: '-' :: (d ++ hwySubGo fuel rest)
      | none => c :: hwySubGo fuel cs

/-- Worker for Python `str.replace` (all occurrences, left to right). -/
def replaceAllGo (needle repl : List Char) : Nat → List Char → List Char
  | 0, l => l
  | fuel + 1, l =>
    match l with
    | [] => []
    | c :: cs =>
      if needle.isPrefixOf (c :: cs) then
        repl ++ replaceAllGo needle repl fuel ((c :: cs).drop needle.length)
      else c :: replaceAllGo needle repl fuel cs

/-- Python `s.replace(needle, repl)` for a nonempty needle. -/
def pyReplace (s needle repl : String) : String :=
  ⟨replaceAllGo needle.data repl.data s.data.length s.data⟩

/-- The acronyms preserved by the title-casing step of `save_listing`. -/
def ACRONYMS : List String := ["HWY", "SQ", "ST", "RD", "E", "W", "N", "S"]

/-- The word-wise title-casing at the end of the location-detail
normalization in `save_listing`. -/
def titleWordsAcronyms (s : String) : String :=
  String.intercalate " " ((pySplitWs s).map (fun w =>
    let u := upperStr w
    if ACRONYMS.contains u then u
    else if u = "&" || u = "AND" then "&"
    else pyCapitalize w))

/-- The location-detail normalization chain of `save_listing` (strip
parenthetical suffix, drop a leading "NEAR", collapse whitespace,
hyphenate HWY numbers, fix the Trafalgar misspelling — case-sensitively —
normalize ampersand spacing, title-case with acronyms preserved).
Returns `none` when the detail is empty or "unknown". -/
def normalize_location_detail (detail : String) : Option String :=
  if detail = "" ∨ lowerStr detail = "unknown" then none else
  let n0 := pyStrip detail
  let n1 : String := ⟨removeParenSuffix n0.data⟩
  let n2 : String := ⟨dropNearMarker n1.data⟩
  let n3 := joinSplitWs n2
  let n4 : String := ⟨hwySubGo n3.data.length n3.data⟩
  let n5 := pyReplace (pyReplace n4 "Trafalger" "Trafalgar") "trafalger" "Trafalgar"
  let n6 : String := ⟨sepCollapse '&' [' ', '&', ' '] n5.data⟩
  some (titleWordsAcronyms n6)

/-- The location cache `_location_cache`: a Python dict from string pairs
to `Location` rows, modelled as an insertion-ordered association list
(including the sentinel keys `('_town_only', town)` and
`('_default', '')` the source stores in the same dict). -/
abbrev LocCache := List ((String × String) × LocationRow)

/-- Python dict insertion: overwrite in place, or append a new key. -/
def dictInsert (k : String × String) (v : LocationRow) (c : LocCache) : LocCache :=
  if c.any (fun p => p.1 = k) then c.map (fun p => if p.1 = k then (k, v) else p)
  else c ++ [(k, v)]

/-- Python dict lookup. -/
def dictFind (c : LocCache) (k : String × String) : Option LocationRow :=
  (c.find? (fun p => p.1 = k)).map (fun p => p.2)

/-- `BaseScraper._load_location_cache`.  Note: the source guards the
town-only insert with `town_lower not in self._location_cache`, but that
membership test compares a *string* against the dict's *tuple* keys and
is therefore always true, so the town-only entry is unconditionally
(re)written — the last location of a town wins. -/
def load_location_cache (locs : List LocationRow) : LocCache :=
  locs.foldl (fun c loc =>
    let townLower := pyStrip (lowerStr loc.town)
    let locLower := pyStrip (lowerStr loc.location)
    let c1 := dictInsert (townLower, locLower) loc c
    let c2 := if townLower ≠ "" then dictInsert ("_town_only", townLower) loc c1 else c1
    if loc.isDefault then dictInsert ("_default", "") loc c2 else c2) []

/-- `BaseScraper._find_location_in_cache`: the five matching strategies in
source order, each tried only if the previous ones missed. -/
def find_location_in_cache (cache : LocCache) (townName locationDetail : String)
    (normalizedLocation : Option String) : Option LocationRow :=
  let townLower := pyStrip (lowerStr townName)
  let locationLower := pyStrip (lowerStr locationDetail)
  let normalizedLower := pyStrip (lowerStr (normalizedLocation.getD ""))
  match dictFind cache (townLower, locationLower) with
  | some loc => some loc
  | none =>
  match (if normalizedLower ≠ "" ∧ normalizedLower ≠ locationLower then
           dictFind cache (townLower, normalizedLower) else none) with
  | some loc => some loc
  | none =>
  match (if townLower ≠ "" then dictFind cache (townLower, "unknown") else none) with
  | some loc => some loc
  | none =>
  match (if townLower ≠ "" then dictFind cache ("_town_only", townLower) else none) with
  | some loc => some loc
  | none =>
  if townLower ≠ "" then
    (cache.find? (fun p =>
      p.1.1 ≠ "" ∧ (strContains p.1.1 townLower || strContains townLower p.1.1))).map
      (fun p => p.2)
  else none

/-- `BaseScraper._get_default_location`. -/
def get_default_location (cache : LocCache) : Option LocationRow :=
  dictFind cache ("_default", "")

/-- First hit of an ordered list of matching strategies — the
specification's "tries its matching strategies in a strict precedence
order, stopping at the first hit".  Written from the specification's
words (not from the code) as the reference side of the C4 refinement. -/
def firstHit (strategies : List (Unit → Option LocationRow)) : Option LocationRow :=
  match strategies with
  | [] => none
  | s :: rest =>
    match s () with
    | some loc => some loc
    | none => firstHit rest

/-- The cache-matching precedence as the specification words it, with
the guards the source actually applies: exact case-insensitive
(town, detail); exact match on the normalized detail when that is
nonempty and differs from the raw detail; (town, "unknown"); town-only;
partial (substring) town match — the last three only for a nonempty
town.  Spec-derived reference for the C4 refinement. -/
def findLocationSpec (cache : LocCache) (townName locationDetail : String)
    (normalizedLocation : Option String) : Option LocationRow :=
  let townLower := pyStrip (lowerStr townName)
  let locationLower := pyStrip (lowerStr locationDetail)
  let normalizedLower := pyStrip (lowerStr (normalizedLocation.getD ""))
  firstHit
    [fun _ => dictFind cache (townLower, locationLower),
     fun _ => if normalizedLower ≠ "" ∧ normalizedLower ≠ locationLower then
         dictFind cache (townLower, normalizedLower) else none,
     fun _ => if townLower ≠ "" then dictFind cache (townLower, "unknown") else none,
     fun _ => if townLower ≠ "" then dictFind cache ("_town_only", townLower) else none,
     fun _ => if townLower ≠ "" then
         (cache.find? (fun p =>
           p.1.1 ≠ "" ∧ (strContains p.1.1 townLower || strContains townLower p.1.1))).map
           (fun p => p.2)
       else none]

/-! ## `save_listing` and the orchestrating `run` (`base.py`) -/

/-- The mutable per-scraper state (`self` of `BaseScraper`): config, the
database session, the per-run location cache with its loaded flag, the
batch-commit counter and the accumulating `ScrapeResult`. -/
structure ScraperState where
  config : SiteConfig
  store : Store := {}
  cache : LocCache := []
  cacheLoaded : Bool := false
  pendingCommits : Nat := 0
  result : ScrapeResult

/-- `BaseScraper.__init__`: fresh result for this source. -/
def initScraper (cfg : SiteConfig) (store : Store) (startedAt : Nat) : ScraperState :=
  { config := cfg, store := store,
    result := { source := cfg.shortName, startedAt := startedAt } }

/-- The day-name table of `_get_date_from_day_of_week`. -/
def dayMap : List (String × Nat) :=
  [("Monday", 0), ("Tuesday", 1), ("Wednesday", 2), ("Thursday", 3),
   ("Friday", 4), ("Saturday", 5), ("Sunday", 6)]

/-- `BaseScraper._get_date_from_day_of_week`.  Dates are abstract day
numbers whose weekday is the number modulo 7 (Monday = 0); an unknown day
name yields today, a known one the next strictly future occurrence. -/
def get_date_from_day_of_week (today : Nat) (day : String) : Nat :=
  match (dayMap.find? (fun p => p.1 = day)).map (fun p => p.2) with
  | none => today
  | some target =>
    let current := today % 7
    today + (if target ≤ current then target + 7 - current else target - current)

/-- Split at the first comma (`location_str.split(',', 1)`). -/
def splitCommaOnce (l : List Char) : List Char × List Char :=
  (l.takeWhile (fun c => c ≠ ','), (l.dropWhile (fun c => c ≠ ',')).drop 1)

/-- `json.dumps` of the image list, abstracted to a concrete encoding;
no claim inspects the serialized form. -/
def jsonDumpList (l : List String) : String := String.intercalate "|" l

/-- The field-update block of `save_listing` (everything assigned to
`db_listing` after the insert-or-fetch). -/
def updateFields (row : ListingRow) (listing : ScrapedListing) : ListingRow :=
  { row with
    tier := listing.tier
    age := listing.age
    nationality := listing.nationality
    ethnicity := listing.ethnicity
    height := listing.height
    weight := listing.weight
    bust := listing.bust
    bustType := listing.bustType
    measurements := listing.measurements
    hairColor := listing.hairColor
    eyeColor := listing.eyeColor
    serviceType := listing.serviceType
    images := if listing.images = [] then none else some (jsonDumpList listing.images)
    isActive := true
    isExpired := false
    incall30min := listing.incall30min
    incall45min := listing.incall45min
    incall1hr := listing.incall1hr
    outcall1hr := listing.outcall1hr
    minBooking := listing.minBooking }

/-- Steps 6 and 7 of the location resolution (`save_listing`): on a cache
miss, auto-create a Location when the source is SFT, the town is a known
town (a case-sensitive membership test) and the detail is nonempty;
otherwise fall back to the default location.  Returns the resolved
location together with the possibly-extended store and cache. -/
def resolve_location_from_parsed (shortName : String) (sourceId : Nat)
    (townName locationDetail : String) (normalized : Option String)
    (store : Store) (cache : LocCache) : Option LocationRow × Store × LocCache :=
  match find_location_in_cache cache townName locationDetail normalized with
  | some loc => (some loc, store, cache)
  | none =>
    if townName ≠ "" ∧ locationDetail ≠ "" ∧ shortName = "SFT" ∧
        KNOWN_TOWNS.contains townName then
      let newLoc : LocationRow :=
        { id := store.nextLocationId, sourceId := sourceId,
          town := townName, location := locationDetail, isDefault := false }
      (some newLoc,
       { store with locations := store.locations ++ [newLoc],
                    nextLocationId := store.nextLocationId + 1 },
       dictInsert (lowerStr townName, lowerStr locationDetail) newLoc cache)
    else
      (get_default_location cache, store, cache)

/-- The defaulting of a schedule entry's location string in
`save_listing`: a missing, None, empty or all-whitespace location becomes
"Unknown". -/
def effLocation (entry : ScheduleEntry) : String :=
  let ls1 := entry.location.getD ""
  if ls1 = "" ∨ pyStrip ls1 = "" then "Unknown" else ls1

/-- The OUTCALL skip test of `save_listing`:
`location_str.upper() == 'OUTCALL' or 'OUTCALL' in location_str.upper()`. -/
def isOutcallLoc (s : String) : Bool :=
  (upperStr s == "OUTCALL") || strContains (upperStr s) "OUTCALL"

/-- The body of the per-entry schedule loop of `save_listing`: default the
location string, silently skip OUTCALL entries, parse town and detail
(the guarded import of `sites.sft.parse_sft_location` raises ImportError
at runtime — a relative import beyond the top-level `scrapers` package —
and is caught, so the fallback parse always stands), normalize the
detail, resolve the location through the cache, and insert one Schedule
row. -/
def process_schedule_entry (today sourceId dbListingId : Nat)
    (st : ScraperState) (entry : ScheduleEntry) : ScraperState :=
  let ls := effLocation entry
  if isOutcallLoc ls then st
  else
    let ls2 := pyStrip ls
    let parsed :=
      if strContains ls2 "," then
        let parts := splitCommaOnce ls2.data
        (pyStrip ⟨parts.1⟩, pyStrip ⟨parts.2⟩)
      else parse_sft_location_fallback ls2
    let townName := parsed.1
    let locationDetail := parsed.2
    let normalized := normalize_location_detail locationDetail
    let cache0 :=
      if st.cacheLoaded then st.cache
      else load_location_cache (st.store.locations.filter (fun l => l.sourceId = sourceId))
    let resolved := resolve_location_from_parsed st.config.shortName sourceId
      townName locationDetail normalized st.store cache0
    let loc := resolved.1
    let store1 := resolved.2.1
    let cache1 := resolved.2.2
    let schedDate := match entry.dayOfWeek with
      | some d => if d = "" then none else some (get_date_from_day_of_week today d)
      | none => none
    let row : ScheduleRow :=
      { id := store1.nextScheduleId, listingId := dbListingId,
        dayOfWeek := entry.dayOfWeek, date := schedDate,
        locationId := loc.map (fun l => l.id),
        startTime := entry.startTime, endTime := entry.endTime }
    { st with
      store := { store1 with schedules := store1.schedules ++ [row],
                             nextScheduleId := store1.nextScheduleId + 1 },
      cache := cache1, cacheLoaded := true }

/-- One iteration of the tag loop of `save_listing`: find or create the
tag, then add the association unless its id was in the snapshot. -/
def ensure_tag_step (dbListingId : Nat) (existingTagIds : List Nat)
    (s : Store) (tagName : String) : Store :=
  match s.tags.find? (fun t => t.name = tagName) with
  | some tag =>
    if existingTagIds.contains tag.id then s
    else { s with listingTags := s.listingTags ++ [(dbListingId, tag.id)] }
  | none =>
    let tag : TagRow := { id := s.nextTagId, name := tagName }
    let s1 := { s with tags := s.tags ++ [tag], nextTagId := s.nextTagId + 1 }
    if existingTagIds.contains tag.id then s1
    else { s1 with listingTags := s1.listingTags ++ [(dbListingId, tag.id)] }

/-- The tag block of `save_listing`: associations are only ever added,
never removed; the existing-ids snapshot is taken before the loop. -/
def ensure_tags (dbListingId : Nat) (tagNames : List String) (store : Store) : Store :=
  let existingTagIds := (store.listingTags.filter (fun p => p.1 = dbListingId)).map (fun p => p.2)
  tagNames.foldl (ensure_tag_step dbListingId existingTagIds) store

/-- The source get-or-create step at the top of `save_listing`. -/
def get_or_create_source (st : ScraperState) : SourceRow × Store :=
  match st.store.sources.find? (fun s => s.name = st.config.shortName) with
  | some s => (s, st.store)
  | none =>
    let source : SourceRow := { id := st.store.nextSourceId, name := st.config.shortName }
    (source, { st.store with sources := st.store.sources ++ [source],
                             nextSourceId := st.store.nextSourceId + 1 })

/-- The listing upsert of `save_listing`: find by (name, source), create
the row (profile url only at creation) or reuse it, and apply the field
updates.  Returns the pre-existing row (if any), the listing id, and the
updated store. -/
def upsert_listing_row (source : SourceRow) (listing : ScrapedListing) (store0 : Store) :
    Option ListingRow × Nat × Store :=
  match store0.listings.find? (fun l => l.name = listing.name ∧ l.sourceId = source.id) with
  | some row =>
    (some row, row.id,
     { store0 with listings := store0.listings.map (fun l =>
         if l.id = row.id then updateFields l listing else l) })
  | none =>
    (none, store0.nextListingId,
     { store0 with
       listings := store0.listings ++
         [updateFields { id := store0.nextListingId, sourceId := source.id,
                         name := listing.name, profileUrl := listing.profileUrl } listing],
       nextListingId := store0.nextListingId + 1 })

/-- `BaseScraper.save_listing` (database-backed path): get or create the
source, upsert the Listing by (name, source) — the profile url is only
set at creation — delete all existing Schedule rows of the listing when
updating, re-insert one row per non-OUTCALL schedule entry, ensure tags,
and do the batch-commit bookkeeping.  Returns `(is_new, old_listing)`
and the new state. -/
def save_listing (today : Nat) (listing : ScrapedListing) (st : ScraperState) :
    Bool × Option ListingRow × ScraperState :=
  let gs := get_or_create_source st
  let source := gs.1
  let up := upsert_listing_row source listing gs.2
  let existing := up.1
  let isNew := existing.isNone
  let dbId := up.2.1
  let store1 := up.2.2
  let store2 :=
    if isNew then store1
    else { store1 with schedules := store1.schedules.filter (fun r => r.listingId ≠ dbId) }
  let st3 := listing.schedules.foldl (process_schedule_entry today source.id dbId)
    { st with store := store2 }
  let store4 := ensure_tags dbId listing.tags st3.store
  let pending := st3.pendingCommits + 1
  (isNew, existing,
   { st3 with store := store4,
              pendingCommits := if 10 ≤ pending then 0 else pending })

/-- The grouping step of `run`: a dict from profile url to its schedule
items, in order of first appearance. -/
def group_profiles (items : List ScheduleItem) : List (String × List ScheduleItem) :=
  items.foldl (fun acc it =>
    if acc.any (fun g => g.1 = it.profileUrl) then
      acc.map (fun g => if g.1 = it.profileUrl then (g.1, g.2 ++ [it]) else g)
    else acc ++ [(it.profileUrl, [it])]) []

/-- The per-profile iteration of `run`, including its try/except: a
failing profile fetch increments `errors` and appends an error detail,
and the loop continues; a successful one is normalized, saved, and
counted as new or updated.  (In this model only the fetch can fail; an
empty group would raise the IndexError the source would raise.) -/
def process_profile (today : Nat) (fetch : String → Except String ProfileData)
    (st : ScraperState) (g : String × List ScheduleItem) : ScraperState :=
  match g.2 with
  | [] =>
    { st with result := { st.result with
        errors := st.result.errors + 1,
        errorDetails := st.result.errorDetails ++
          [{ profileUrl := some g.1, error := "list index out of range" }] } }
  | firstItem :: _ =>
    match fetch g.1 with
    | Except.error e =>
      { st with result := { st.result with
          errors := st.result.errors + 1,
          errorDetails := st.result.errorDetails ++ [{ profileUrl := some g.1, error := e }] } }
    | Except.ok pd =>
      let listing := normalize_listing st.config.shortName firstItem pd (some g.2)
      let saved := save_listing today listing st
      let st1 := saved.2.2
      if saved.1 then
        { st1 with result := { st1.result with new := st1.result.new + 1 } }
      else
        { st1 with result := { st1.result with updated := st1.result.updated + 1 } }

/-- `BaseScraper.run`: scrape the schedule (a failure there is recorded
and re-raised — the returned flag is the propagated exception), group
items by profile url, process each unique profile with per-profile fault
isolation, flush pending commits, and stamp the completion time. -/
def run (today doneAt : Nat) (scheduleResult : Except String (List ScheduleItem))
    (fetch : String → Except String ProfileData) (st : ScraperState) :
    ScraperState × Option String :=
  match scheduleResult with
  | Except.error e =>
    ({ st with result := { st.result with
         errors := st.result.errors + 1,
         errorDetails := st.result.errorDetails ++ [{ profileUrl := none, error := e }],
         completedAt := some doneAt } }, some e)
  | Except.ok items =>
    let st1 := { st with result := { st.result with total := items.length } }
    let st2 := (group_profiles items).foldl (process_profile today fetch) st1
    ({ st2 with result := { st2.result with completedAt := some doneAt },
                pendingCommits := 0 }, none)

/-- Does the per-profile step of `run` fail for this group?  (In this
model only the profile fetch can raise.) -/
def profileFails (fetch : String → Except String ProfileData)
    (g : String × List ScheduleItem) : Bool :=
  match fetch g.1 with
  | Except.error _ => true
  | Except.ok _ => false

/-- The error message recorded for a failing profile group. -/
def profileErrMsg (fetch : String → Except String ProfileData)
    (g : String × List ScheduleItem) : String :=
  match fetch g.1 with
  | Except.error e => e
  | Except.ok _ => ""

/-- The name under which a successfully processed profile group is
persisted (profile-page name when truthy, else the schedule name). -/
def profileName (fetch : String → Except String ProfileData)
    (g : String × List ScheduleItem) : String :=
  match g.2 with
  | [] => ""
  | i :: _ =>
    match fetch g.1 with
    | Except.ok pd =>
      (match pd.name with
       | some n => if n = "" then i.name else n
       | none => i.name)
    | Except.error _ => i.name

/-! # Theorems -/

/-- C3: in the base `normalize_listing`, a non-empty schedule-page tier
hint takes precedence over any profile-page tier; when the schedule
item's tier is absent (None or empty, both falsy under Python `or`), the
normalized listing takes the profile page's tier. -/
theorem claim_C3 (shortName : String) (item : ScheduleItem) (pd : ProfileData)
    (allItems : Option (List ScheduleItem)) :
    (∀ t, item.tier = some t → t ≠ "" →
      (normalize_listing shortName item pd allItems).tier = some t) ∧
    ((item.tier = none ∨ item.tier = some "") →
      (normalize_listing shortName item pd allItems).tier = pd.tier) := by
  constructor
  · intro t ht hne
    simp [normalize_listing, pyOrStr, ht, hne]
  · rintro (h | h) <;> simp [normalize_listing, pyOrStr, h]

/-- Witness for C3: with a schedule tier "Elite" and a disagreeing profile
tier "VIP", the normalized tier is "Elite"; with no schedule tier, the
profile tier is used. -/
theorem claim_C3_witness :
    (normalize_listing "SFT"
      { name := "Amy", profileUrl := "amy", dayOfWeek := "Monday", tier := some "Elite" }
      { tier := some "VIP" } none).tier = some "Elite" ∧
    (normalize_listing "SFT"
      { name := "Amy", profileUrl := "amy", dayOfWeek := "Monday" }
      { tier := some "VIP" } none).tier = some "VIP" :=
  ⟨(claim_C3 "SFT" _ _ none).1 "Elite" rfl (by decide),
   (claim_C3 "SFT" _ _ none).2 (Or.inl rfl)⟩

/-- C9: the dictionary emitted by `ScrapeResult.to_dict` to the reporting
layer carries at most 10 error-detail entries, however many per-profile
failures were recorded during the run. -/
theorem claim_C9 (r : ScrapeResult) :
    (r.to_dict).error_details.length ≤ 10 := by
  simp [ScrapeResult.to_dict]

/-- C8: for both fetchers, the pre-request wait is at least the configured
interval minus the elapsed time since the previous request recorded on
the same instance, so consecutive fetches are separated by at least the
configured interval (the stealth fetcher adds a nonnegative random
human-like delay of at most 0.3 s). -/
theorem claim_C8 (rateLimit elapsed r : ℚ) (h0 : 0 ≤ r) (h3 : r ≤ 3 / 10) :
    rateLimit - elapsed ≤ waitStatic rateLimit elapsed ∧
    rateLimit - elapsed ≤ waitStealth rateLimit elapsed r := by
  unfold waitStatic waitStealth
  constructor
  · split <;> linarith
  · dsimp only
    split <;> linarith

/-- Witness for C8: interval 3 s, elapsed 1 s, random extra 0.1 s. -/
theorem claim_C8_witness :
    (3 : ℚ) - 1 ≤ waitStatic 3 1 ∧ (3 : ℚ) - 1 ≤ waitStealth 3 1 (1 / 10) :=
  claim_C8 3 1 (1 / 10) (by norm_num) (by norm_num)

/-- Counterexample for C7: a 304 response (non-2xx) with a one-character
body is returned as a success by the fetch decision, although the claim
requires every non-2xx response without a large markup body to be a hard
error — the code's threshold is status ≥ 400, not "non-2xx". -/
theorem claim_C7_counterexample :
    299 < 304 ∧ (HttpResponse.mk 304 "x").body.length ≤ 1000 ∧
    staticFetchDecision ⟨304, "x"⟩ = Except.ok "x" :=
  ⟨by norm_num, by decide, rfl⟩

/-- C7 (amended): a response with status ≥ 400 is a hard error — the
attempt fails, and once every attempt of the retry loop has failed the
last error is raised — unless its body exceeds 1000 characters and
contains `<html` case-insensitively, in which case the body is returned
as a success; every response with status below 400 (including non-2xx
3xx responses) is returned as a success. -/
theorem claim_C7 :
    (∀ resp : HttpResponse,
      (resp.status < 400 → staticFetchDecision resp = Except.ok resp.body) ∧
      (400 ≤ resp.status →
        ((resp.body.length > 1000 ∧ strContains (lowerStr resp.body) "<html" = true) →
          staticFetchDecision resp = Except.ok resp.body) ∧
        (¬ (resp.body.length > 1000 ∧ strContains (lowerStr resp.body) "<html" = true) →
          staticFetchDecision resp = Except.error ("HTTP status " ++ toString resp.status)))) ∧
    (∀ attempts : List AttemptOutcome, attempts ≠ [] →
      (∀ o ∈ attempts, ∀ b, attemptResult o ≠ Except.ok b) →
      ∃ e, staticFetch attempts = Except.error e) := by
  constructor
  · intro resp
    constructor
    · intro hlt
      unfold staticFetchDecision
      rw [if_neg (by omega)]
    · intro hge
      constructor
      · intro hbig
        unfold staticFetchDecision
        rw [if_pos hge, if_pos]
        simp only [Bool.and_eq_true, decide_eq_true_eq]
        exact ⟨by exact_mod_cast hbig.1, hbig.2⟩
      · intro hsmall
        unfold staticFetchDecision
        rw [if_pos hge, if_neg]
        intro hc
        simp only [Bool.and_eq_true, decide_eq_true_eq] at hc
        exact hsmall ⟨by exact_mod_cast hc.1, hc.2⟩
  · intro attempts
    induction attempts with
    | nil => intro h _; exact absurd rfl h
    | cons o rest ih =>
      intro _ hall
      have ho := hall o (List.mem_cons_self o rest)
      unfold staticFetch
      cases hres : attemptResult o with
      | ok b => exact absurd hres (ho b)
      | error e =>
        cases rest with
        | nil => exact ⟨e, rfl⟩
        | cons o2 r2 =>
          exact ih (by simp) (fun x hx => hall x (List.mem_cons_of_mem o hx))

/-! ## Character-class and scanner lemmas -/

theorem isPySpace_elim {c : Char} (h : isPySpace c = true) :
    c = ' ' ∨ c = '\t' ∨ c = '\n' ∨ c = '\r' ∨ c = '\x0b' ∨ c = '\x0c' := by
  simp only [isPySpace, Bool.or_eq_true, decide_eq_true_eq] at h
  tauto

theorem isAlpha_false_of_isDigit {c : Char} (h : c.isDigit = true) : c.isAlpha = false := by
  simp only [Char.isDigit, UInt32.le_def, BitVec.le_def, Bool.and_eq_true,
    decide_eq_true_eq] at h
  simp only [Char.isAlpha, Char.isUpper, Char.isLower, UInt32.le_def, BitVec.le_def,
    Bool.or_eq_false_iff, Bool.and_eq_false_iff, decide_eq_false_iff_not, not_le]
  have e48 : (UInt32.toBitVec 48).toNat = 48 := by decide
  have e57 : (UInt32.toBitVec 57).toNat = 57 := by decide
  have e65 : (UInt32.toBitVec 65).toNat = 65 := by decide
  have e90 : (UInt32.toBitVec 90).toNat = 90 := by decide
  have e97 : (UInt32.toBitVec 97).toNat = 97 := by decide
  have e122 : (UInt32.toBitVec 122).toNat = 122 := by decide
  omega

theorem isDigit_false_of_isAlpha {c : Char} (h : c.isAlpha = true) : c.isDigit = false := by
  cases hd : c.isDigit with
  | false => rfl
  | true => rw [isAlpha_false_of_isDigit hd] at h; exact Bool.noConfusion h

theorem ne_of_isDigit {c d : Char} (h : c.isDigit = true) (hd : d.isDigit = false) :
    c ≠ d := by
  intro hc; rw [hc, hd] at h; exact Bool.noConfusion h

theorem ne_of_isAlpha {c d : Char} (h : c.isAlpha = true) (hd : d.isAlpha = false) :
    c ≠ d := by
  intro hc; rw [hc, hd] at h; exact Bool.noConfusion h

theorem ne_of_isPySpace {c d : Char} (h : isPySpace c = true) (hd : isPySpace d = false) :
    c ≠ d := by
  intro hc; rw [hc, hd] at h; exact Bool.noConfusion h

theorem isPySpace_false_of_isDigit {c : Char} (h : c.isDigit = true) : isPySpace c = false := by
  cases hs : isPySpace c with
  | false => rfl
  | true =>
    rcases isPySpace_elim hs with rfl | rfl | rfl | rfl | rfl | rfl <;>
      exact absurd h (by decide)

theorem isPySpace_false_of_isAlpha {c : Char} (h : c.isAlpha = true) : isPySpace c = false := by
  cases hs : isPySpace c with
  | false => rfl
  | true =>
    rcases isPySpace_elim hs with rfl | rfl | rfl | rfl | rfl | rfl <;>
      exact absurd h (by decide)

theorem dropWhile_eq_self_of_head {p : Char → Bool} {l : List Char}
    (h : ∀ c, l.head? = some c → p c = false) : l.dropWhile p = l := by
  cases l with
  | nil => rfl
  | cons c cs => rw [List.dropWhile_cons, if_neg (by simp [h c rfl])]

theorem takeWhile_eq_nil_of_head {p : Char → Bool} {l : List Char}
    (h : ∀ c, l.head? = some c → p c = false) : l.takeWhile p = [] := by
  cases l with
  | nil => rfl
  | cons c cs => rw [List.takeWhile_cons, if_neg (by simp [h c rfl])]

theorem takeWhile_all {p : Char → Bool} {l : List Char} (h : ∀ c ∈ l, p c = true) :
    l.takeWhile p = l := by
  induction l with
  | nil => rfl
  | cons c cs ih =>
    rw [List.takeWhile_cons_of_pos (h c (List.mem_cons_self c cs)),
      ih (fun x hx => h x (List.mem_cons_of_mem c hx))]

theorem dropWhile_all {p : Char → Bool} {l : List Char} (h : ∀ c ∈ l, p c = true) :
    l.dropWhile p = [] := by
  induction l with
  | nil => rfl
  | cons c cs ih =>
    rw [List.dropWhile_cons_of_pos (h c (List.mem_cons_self c cs)),
      ih (fun x hx => h x (List.mem_cons_of_mem c hx))]

theorem pyStripChars_eq_self {l : List Char}
    (h1 : ∀ c, l.head? = some c → isPySpace c = false)
    (h2 : ∀ c, l.getLast? = some c → isPySpace c = false) :
    pyStripChars l = l := by
  unfold pyStripChars
  rw [dropWhile_eq_self_of_head h1]
  rw [dropWhile_eq_self_of_head (fun c hc =>
    h2 c (by rwa [List.getLast?_eq_head?_reverse]))]
  exact List.reverse_reverse l

theorem matchSepAt_none {sep c : Char} {l : List Char}
    (hsp : isPySpace c = false) (hne : c ≠ sep) : matchSepAt sep (c :: l) = none := by
  unfold matchSepAt
  rw [List.dropWhile_cons, if_neg (by simp [hsp])]
  simp [hne]

theorem matchSepAt_some {sep : Char} (hsep : isPySpace sep = false) {sp sp2 l : List Char}
    (h1 : ∀ c ∈ sp, isPySpace c = true) (h2 : ∀ c ∈ sp2, isPySpace c = true)
    (h3 : ∀ c, l.head? = some c → isPySpace c = false) :
    matchSepAt sep (sp ++ sep :: (sp2 ++ l)) = some l := by
  unfold matchSepAt
  rw [List.dropWhile_append_of_pos h1, List.dropWhile_cons, if_neg (by simp [hsep])]
  simp [List.dropWhile_append_of_pos h2, dropWhile_eq_self_of_head h3]

theorem matchSepAt_length {sep : Char} {l r : List Char}
    (h : matchSepAt sep l = some r) : r.length < l.length := by
  unfold matchSepAt at h
  cases hd : l.dropWhile isPySpace with
  | nil => rw [hd] at h; exact absurd h (by simp)
  | cons c cs =>
    rw [hd] at h
    have h' : (if c = sep then some (cs.dropWhile isPySpace) else none) = some r := h
    by_cases hc : c = sep
    · rw [if_pos hc] at h'
      injection h' with h2
      have hlen : (c :: cs).length ≤ l.length := by
        rw [← hd]; exact (List.dropWhile_sublist isPySpace).length_le
      have hcs : r.length ≤ cs.length := by
        rw [← h2]; exact (List.dropWhile_sublist isPySpace).length_le
      simp only [List.length_cons] at hlen
      omega
    · rw [if_neg hc] at h'; exact absurd h' (by simp)

theorem sepGo_nil (sep : Char) (out : List Char) (n : Nat) :
    sepCollapseGo sep out n [] = [] := by
  cases n <;> rfl

theorem sepGo_congr (sep : Char) (out : List Char) :
    ∀ n m l, l.length ≤ n → l.length ≤ m →
      sepCollapseGo sep out n l = sepCollapseGo sep out m l := by
  intro n
  induction n with
  | zero =>
    intro m l h1 _
    have : l = [] := List.length_eq_zero.mp (Nat.le_zero.mp h1)
    subst this
    rw [sepGo_nil, sepGo_nil]
  | succ n ih =>
    intro m l h1 h2
    cases l with
    | nil => rw [sepGo_nil, sepGo_nil]
    | cons c cs =>
      obtain ⟨m', rfl⟩ : ∃ m', m = m' + 1 := by
        cases m with
        | zero => simp at h2
        | succ k => exact ⟨k, rfl⟩
      cases hms : matchSepAt sep (c :: cs) with
      | some r =>
        have hr := matchSepAt_length hms
        simp only [List.length_cons] at hr h1 h2
        simp only [sepCollapseGo, hms]
        exact congrArg (out ++ ·) (ih m' r (by omega) (by omega))
      | none =>
        simp only [List.length_cons] at h1 h2
        simp only [sepCollapseGo, hms]
        exact congrArg (c :: ·) (ih m' cs (by omega) (by omega))

theorem sepCollapse_nil (sep : Char) (out : List Char) : sepCollapse sep out [] = [] := rfl

theorem sepCollapse_cons_other {sep : Char} {out : List Char} {c : Char} {l : List Char}
    (hsp : isPySpace c = false) (hne : c ≠ sep) :
    sepCollapse sep out (c :: l) = c :: sepCollapse sep out l := by
  unfold sepCollapse
  simp only [List.length_cons, sepCollapseGo, matchSepAt_none hsp hne]

theorem sepCollapse_front {sep : Char} {out : List Char} (pre : List Char)
    (hpre : ∀ c ∈ pre, isPySpace c = false ∧ c ≠ sep) (l : List Char) :
    sepCollapse sep out (pre ++ l) = pre ++ sepCollapse sep out l := by
  induction pre with
  | nil => simp
  | cons c cs ih =>
    have hc := hpre c (List.mem_cons_self c cs)
    rw [List.cons_append, sepCollapse_cons_other hc.1 hc.2,
      ih (fun x hx => hpre x (List.mem_cons_of_mem c hx)), List.cons_append]

theorem sepCollapse_matchStep {sep : Char} {out : List Char} (hsep : isPySpace sep = false)
    {sp sp2 l : List Char}
    (h1 : ∀ c ∈ sp, isPySpace c = true) (h2 : ∀ c ∈ sp2, isPySpace c = true)
    (h3 : ∀ c, l.head? = some c → isPySpace c = false) :
    sepCollapse sep out (sp ++ sep :: (sp2 ++ l)) = out ++ sepCollapse sep out l := by
  unfold sepCollapse
  have hm := matchSepAt_some hsep h1 h2 h3
  obtain ⟨N, hN⟩ : ∃ N, (sp ++ sep :: (sp2 ++ l)).length = N + 1 := by
    refine ⟨sp.length + sp2.length + l.length, ?_⟩
    simp [List.length_append]
    omega
  rw [hN]
  simp only [sepCollapseGo, hm]
  refine congrArg (out ++ ·) (sepGo_congr sep out N l.length l ?_ le_rfl)
  simp [List.length_append] at hN
  omega

theorem sepCollapse_all_other {sep : Char} {out : List Char} {l : List Char}
    (h : ∀ c ∈ l, isPySpace c = false ∧ c ≠ sep) : sepCollapse sep out l = l := by
  induction l with
  | nil => rfl
  | cons c cs ih =>
    have hc := h c (List.mem_cons_self c cs)
    rw [sepCollapse_cons_other hc.1 hc.2, ih (fun x hx => h x (List.mem_cons_of_mem c hx))]

/-! ## The measurements pipeline on well-formed triples -/

set_option maxRecDepth 4000 in
theorem cleanup_structured (b cup w h sp1 sp2 sp3 sp4 : List Char) (sep1 sep2 : Char)
    (hb0 : b ≠ []) (hb : ∀ c ∈ b, c.isDigit = true)
    (hcup : ∀ c ∈ cup, c.isAlpha = true)
    (hw0 : w ≠ []) (hw : ∀ c ∈ w, c.isDigit = true)
    (hh0 : h ≠ []) (hh : ∀ c ∈ h, c.isDigit = true)
    (hs1 : ∀ c ∈ sp1, isPySpace c = true) (hs2 : ∀ c ∈ sp2, isPySpace c = true)
    (hs3 : ∀ c ∈ sp3, isPySpace c = true) (hs4 : ∀ c ∈ sp4, isPySpace c = true)
    (hsep1 : sep1 = '-' ∨ sep1 = '/') (hsep2 : sep2 = '-' ∨ sep2 = '/') :
    measurementsCleanup ⟨b ++ cup ++ sp1 ++ sep1 :: (sp2 ++ w ++ sp3 ++ sep2 :: (sp4 ++ h))⟩
      = b ++ cup ++ '-' :: (w ++ '-' :: h) := by
  obtain ⟨d0, b', rfl⟩ := List.exists_cons_of_ne_nil hb0
  obtain ⟨w0, w', rfl⟩ := List.exists_cons_of_ne_nil hw0
  have hd0 : d0.isDigit = true := hb d0 (List.mem_cons_self d0 b')
  have hw0d : w0.isDigit = true := hw w0 (List.mem_cons_self w0 w')
  unfold measurementsCleanup
  show stripBustSpace (collapseDashSpaces
      ((pyStripChars ((d0 :: b') ++ cup ++ sp1 ++ sep1 :: (sp2 ++ (w0 :: w') ++ sp3 ++ sep2 :: (sp4 ++ h)))).map
        (fun c => if c = '/' then '-' else c)))
      = (d0 :: b') ++ cup ++ '-' :: ((w0 :: w') ++ '-' :: h)
  -- Step 1: strip is the identity (input begins and ends with a digit).
  have hstrip : pyStripChars
      ((d0 :: b') ++ cup ++ sp1 ++ sep1 :: (sp2 ++ (w0 :: w') ++ sp3 ++ sep2 :: (sp4 ++ h)))
      = (d0 :: b') ++ cup ++ sp1 ++ sep1 :: (sp2 ++ (w0 :: w') ++ sp3 ++ sep2 :: (sp4 ++ h)) := by
    refine pyStripChars_eq_self ?_ ?_
    · intro c hc
      simp only [List.cons_append, List.head?_cons, Option.some.injEq] at hc
      subst hc
      exact isPySpace_false_of_isDigit hd0
    · intro c hc
      rw [show (d0 :: b') ++ cup ++ sp1 ++ sep1 :: (sp2 ++ (w0 :: w') ++ sp3 ++ sep2 :: (sp4 ++ h))
          = ((d0 :: b') ++ cup ++ sp1 ++ sep1 :: (sp2 ++ (w0 :: w') ++ sp3 ++ sep2 :: sp4)) ++ h
        from by simp [List.append_assoc, List.cons_append]] at hc
      rw [List.getLast?_append] at hc
      cases hg : h.getLast? with
      | none => exact absurd (List.getLast?_eq_none_iff.mp hg) hh0
      | some x =>
        rw [hg] at hc
        simp only [Option.or_some, Option.some.injEq] at hc
        subst hc
        exact isPySpace_false_of_isDigit (hh x (List.mem_of_getLast?_eq_some hg))
  -- Step 2: slash replacement turns both separators into dashes and fixes
  -- every other character.
  have hmapfix : ∀ (l : List Char), (∀ c ∈ l, c ≠ '/') →
      l.map (fun c => if c = '/' then '-' else c) = l := by
    intro l hl
    rw [List.map_congr_left (g := id) (fun a ha => by simp [hl a ha]), List.map_id]
  have hsepmap : ∀ s : Char, s = '-' ∨ s = '/' →
      (if s = '/' then '-' else s) = '-' := by
    rintro s (rfl | rfl) <;> simp
  have hmapGen : ∀ B C S1 S2 W S3 S4 H : List Char,
      (∀ c ∈ B, c ≠ '/') → (∀ c ∈ C, c ≠ '/') → (∀ c ∈ S1, c ≠ '/') →
      (∀ c ∈ S2, c ≠ '/') → (∀ c ∈ W, c ≠ '/') → (∀ c ∈ S3, c ≠ '/') →
      (∀ c ∈ S4, c ≠ '/') → (∀ c ∈ H, c ≠ '/') →
      (B ++ C ++ S1 ++ sep1 :: (S2 ++ W ++ S3 ++ sep2 :: (S4 ++ H))).map
        (fun c => if c = '/' then '-' else c)
        = B ++ C ++ S1 ++ '-' :: (S2 ++ W ++ S3 ++ '-' :: (S4 ++ H)) := by
    intro B C S1 S2 W S3 S4 H q1 q2 q3 q4 q5 q6 q7 q8
    simp only [List.map_append, List.map_cons]
    rw [hmapfix B q1, hmapfix C q2, hmapfix S1 q3, hmapfix S2 q4, hmapfix W q5,
      hmapfix S3 q6, hmapfix S4 q7, hmapfix H q8, hsepmap sep1 hsep1, hsepmap sep2 hsep2]
  rw [hstrip]
  rw [hmapGen (d0 :: b') cup sp1 sp2 (w0 :: w') sp3 sp4 h
    (fun c hc => ne_of_isDigit (hb c hc) (by decide))
    (fun c hc => ne_of_isAlpha (hcup c hc) (by decide))
    (fun c hc => ne_of_isPySpace (hs1 c hc) (by decide))
    (fun c hc => ne_of_isPySpace (hs2 c hc) (by decide))
    (fun c hc => ne_of_isDigit (hw c hc) (by decide))
    (fun c hc => ne_of_isPySpace (hs3 c hc) (by decide))
    (fun c hc => ne_of_isPySpace (hs4 c hc) (by decide))
    (fun c hc => ne_of_isDigit (hh c hc) (by decide))]
  -- Step 3: dash collapapse.
  have hndb : ∀ c ∈ (d0 :: b') ++ cup, isPySpace c = false ∧ c ≠ '-' := by
    intro c hc
    rcases List.mem_append.mp hc with hcb | hcc
    · exact ⟨isPySpace_false_of_isDigit (hb c hcb), ne_of_isDigit (hb c hcb) (by decide)⟩
    · exact ⟨isPySpace_false_of_isAlpha (hcup c hcc), ne_of_isAlpha (hcup c hcc) (by decide)⟩
  have hcollapse : collapseDashSpaces
      ((d0 :: b') ++ cup ++ sp1 ++ '-' :: (sp2 ++ (w0 :: w') ++ sp3 ++ '-' :: (sp4 ++ h)))
      = (d0 :: b') ++ cup ++ '-' :: ((w0 :: w') ++ '-' :: h) := by
    unfold collapseDashSpaces
    rw [show (d0 :: b') ++ cup ++ sp1 ++ '-' :: (sp2 ++ (w0 :: w') ++ sp3 ++ '-' :: (sp4 ++ h))
        = ((d0 :: b') ++ cup) ++ (sp1 ++ '-' :: (sp2 ++ ((w0 :: w') ++ sp3 ++ '-' :: (sp4 ++ h))))
      by simp [List.append_assoc]]
    rw [sepCollapse_front _ hndb]
    rw [sepCollapse_matchStep (by decide) hs1 hs2 (fun c hc => by
      simp only [List.cons_append, List.head?_cons, Option.some.injEq] at hc
      subst hc
      exact isPySpace_false_of_isDigit hw0d)]
    rw [show (w0 :: w') ++ sp3 ++ '-' :: (sp4 ++ h)
        = (w0 :: w') ++ (sp3 ++ '-' :: (sp4 ++ h)) by simp [List.append_assoc]]
    rw [sepCollapse_front _ (fun c hc =>
      ⟨isPySpace_false_of_isDigit (hw c hc), ne_of_isDigit (hw c hc) (by decide)⟩)]
    rw [sepCollapse_matchStep (by decide) hs3 hs4 (fun c hc => by
      cases h with
      | nil => simp at hc
      | cons y ys =>
        simp only [List.head?_cons, Option.some.injEq] at hc
        subst hc
        exact isPySpace_false_of_isDigit (hh y (List.mem_cons_self y ys)))]
    rw [sepCollapse_all_other (fun c hc =>
      ⟨isPySpace_false_of_isDigit (hh c hc), ne_of_isDigit (hh c hc) (by decide)⟩)]
    simp [List.append_assoc]
  rw [hcollapse]
  -- Step 4: no whitespace is left, so the bust-space removal is the identity.
  unfold stripBustSpace
  dsimp only
  have hr1 : ((d0 :: b') ++ cup ++ '-' :: ((w0 :: w') ++ '-' :: h)).dropWhile Char.isDigit
      = cup ++ '-' :: ((w0 :: w') ++ '-' :: h) := by
    rw [show (d0 :: b') ++ cup ++ '-' :: ((w0 :: w') ++ '-' :: h)
        = (d0 :: b') ++ (cup ++ '-' :: ((w0 :: w') ++ '-' :: h)) by simp [List.append_assoc]]
    rw [List.dropWhile_append_of_pos (by intro a ha; exact hb a ha)]
    refine dropWhile_eq_self_of_head ?_
    intro c hc
    cases cup with
    | nil =>
      simp only [List.nil_append, List.head?_cons, Option.some.injEq] at hc
      subst hc; decide
    | cons u us =>
      simp only [List.cons_append, List.head?_cons, Option.some.injEq] at hc
      subst hc
      exact isDigit_false_of_isAlpha (hcup u (List.mem_cons_self u us))
  rw [hr1]
  have hsp0 : (cup ++ '-' :: ((w0 :: w') ++ '-' :: h)).takeWhile isPySpace = [] := by
    refine takeWhile_eq_nil_of_head ?_
    intro c hc
    cases cup with
    | nil =>
      simp only [List.nil_append, List.head?_cons, Option.some.injEq] at hc
      subst hc; decide
    | cons u us =>
      simp only [List.cons_append, List.head?_cons, Option.some.injEq] at hc
      subst hc
      exact isPySpace_false_of_isAlpha (hcup u (List.mem_cons_self u us))
  rw [hsp0]
  simp

theorem parseTriple_structured (b cup w h : List Char)
    (hb0 : b ≠ []) (hb : ∀ c ∈ b, c.isDigit = true)
    (hcup0 : cup ≠ []) (hcup : ∀ c ∈ cup, c.isAlpha = true)
    (hw0 : w ≠ []) (hw : ∀ c ∈ w, c.isDigit = true)
    (hh0 : h ≠ []) (hh : ∀ c ∈ h, c.isDigit = true) :
    parseTriple (b ++ cup ++ '-' :: (w ++ '-' :: h)) = some (b, cup, w, h) := by
  obtain ⟨d0, b', rfl⟩ := List.exists_cons_of_ne_nil hb0
  obtain ⟨u0, us, rfl⟩ := List.exists_cons_of_ne_nil hcup0
  obtain ⟨w0, w', rfl⟩ := List.exists_cons_of_ne_nil hw0
  have hu0 : u0.isAlpha = true := hcup u0 (List.mem_cons_self u0 us)
  have hcupDigit : ∀ c, ((u0 :: us) ++ ('-' :: ((w0 :: w') ++ '-' :: h))).head? = some c →
      c.isDigit = false := by
    intro c hc
    simp only [List.cons_append, List.head?_cons, Option.some.injEq] at hc
    subst hc
    exact isDigit_false_of_isAlpha hu0
  obtain ⟨y0, ys, rfl⟩ := List.exists_cons_of_ne_nil hh0
  unfold parseTriple
  dsimp only
  simp only [List.append_assoc]
  simp only [List.takeWhile_append_of_pos hb, List.dropWhile_append_of_pos hb,
    takeWhile_eq_nil_of_head hcupDigit, dropWhile_eq_self_of_head hcupDigit,
    List.append_nil]
  simp only [List.takeWhile_append_of_pos hcup, List.dropWhile_append_of_pos hcup,
    List.takeWhile_cons_of_neg (show ¬ Char.isAlpha '-' = true by decide),
    List.dropWhile_cons_of_neg (show ¬ Char.isAlpha '-' = true by decide),
    List.append_nil]
  simp only [List.takeWhile_append_of_pos hw, List.dropWhile_append_of_pos hw,
    List.takeWhile_cons_of_neg (show ¬ Char.isDigit '-' = true by decide),
    List.dropWhile_cons_of_neg (show ¬ Char.isDigit '-' = true by decide),
    List.append_nil]
  simp only [takeWhile_all hh, dropWhile_all hh]
  simp

theorem parseTriple_nocup (b w h : List Char)
    (hb : ∀ c ∈ b, c.isDigit = true) :
    parseTriple (b ++ '-' :: (w ++ '-' :: h)) = none := by
  unfold parseTriple
  dsimp only
  simp only [List.takeWhile_append_of_pos hb, List.dropWhile_append_of_pos hb,
    List.takeWhile_cons_of_neg (show ¬ Char.isAlpha '-' = true by decide)]
  simp

theorem parseCompact_nocup (b w h : List Char)
    (hb0 : b ≠ []) (hb : ∀ c ∈ b, c.isDigit = true) :
    parseCompact (b ++ '-' :: (w ++ '-' :: h)) = none := by
  obtain ⟨d0, b', rfl⟩ := List.exists_cons_of_ne_nil hb0
  cases b' with
  | nil =>
    show parseCompact (d0 :: '-' :: (w ++ '-' :: h)) = none
    unfold parseCompact
    have : ('-' : Char).isDigit = false := by decide
    simp [this]
  | cons d1 b'' =>
    have hd1 : d1.isDigit = true := hb d1 (by simp)
    show parseCompact (d0 :: d1 :: (b'' ++ '-' :: (w ++ '-' :: h))) = none
    unfold parseCompact
    dsimp only
    rw [takeWhile_eq_nil_of_head (p := Char.isAlpha) (fun c hc => by
      cases b'' with
      | nil =>
        simp only [List.nil_append, List.head?_cons, Option.some.injEq] at hc
        subst hc; decide
      | cons e es =>
        simp only [List.cons_append, List.head?_cons, Option.some.injEq] at hc
        subst hc
        exact isAlpha_false_of_isDigit (hb e (by simp)))]
    simp [hb d0 (by simp), hd1]

/-- C6: `normalize_measurements` maps every slash- or dash-separated
bust/waist/hip triple — optional whitespace around the separators, an
optional cup-letter run attached to the bust number — to the canonical
`NNLL-NN-NN` shape: digits unchanged, cup letters upper-cased, single
dashes, no spaces; and the three spec examples evaluate as stated. -/
theorem claim_C6 :
    (∀ (b cup w h sp1 sp2 sp3 sp4 : List Char) (sep1 sep2 : Char),
      b ≠ [] → (∀ c ∈ b, c.isDigit = true) →
      (∀ c ∈ cup, c.isAlpha = true) →
      w ≠ [] → (∀ c ∈ w, c.isDigit = true) →
      h ≠ [] → (∀ c ∈ h, c.isDigit = true) →
      (∀ c ∈ sp1, isPySpace c = true) → (∀ c ∈ sp2, isPySpace c = true) →
      (∀ c ∈ sp3, isPySpace c = true) → (∀ c ∈ sp4, isPySpace c = true) →
      (sep1 = '-' ∨ sep1 = '/') → (sep2 = '-' ∨ sep2 = '/') →
      normalize_measurements ⟨b ++ cup ++ sp1 ++ sep1 :: (sp2 ++ w ++ sp3 ++ sep2 :: (sp4 ++ h))⟩
        = some ⟨b ++ cup.map Char.toUpper ++ '-' :: (w ++ '-' :: h)⟩) ∧
    normalize_measurements "34DD- 26-36" = some "34DD-26-36" ∧
    normalize_measurements "34DD/25/34" = some "34DD-25-34" ∧
    normalize_measurements "34C2636" = some "34C-26-36" := by
  refine ⟨?_, by decide, by decide, by decide⟩
  intro b cup w h sp1 sp2 sp3 sp4 sep1 sep2 hb0 hb hcup hw0 hw hh0 hh hs1 hs2 hs3 hs4 hsep1 hsep2
  have hne : (⟨b ++ cup ++ sp1 ++ sep1 :: (sp2 ++ w ++ sp3 ++ sep2 :: (sp4 ++ h))⟩ : String) ≠ "" := by
    intro hc
    have hdata : b ++ cup ++ sp1 ++ sep1 :: (sp2 ++ w ++ sp3 ++ sep2 :: (sp4 ++ h)) = [] :=
      congrArg String.data hc
    obtain ⟨d0, b', rfl⟩ := List.exists_cons_of_ne_nil hb0
    exact absurd hdata (by simp)
  unfold normalize_measurements
  rw [if_neg hne]
  rw [cleanup_structured b cup w h sp1 sp2 sp3 sp4 sep1 sep2
    hb0 hb hcup hw0 hw hh0 hh hs1 hs2 hs3 hs4 hsep1 hsep2]
  dsimp only
  rcases cup with _ | ⟨u0, us⟩
  · simp only [List.append_nil]
    rw [parseTriple_nocup b w h hb, parseCompact_nocup b w h hb0 hb]
    simp
  · rw [parseTriple_structured b (u0 :: us) w h hb0 hb (by simp) hcup hw0 hw hh0 hh]
    simp [List.append_assoc]

/-- Witness for C6: the general triple statement applied at the concrete
input "34 dd / 25 / 36" (spaces around slashes, lower-case cup). -/
theorem claim_C6_witness :
    normalize_measurements ⟨['3', '4'] ++ ['d', 'd'] ++ [' '] ++ '/' ::
        ([' '] ++ ['2', '5'] ++ [' '] ++ '/' :: ([' '] ++ ['3', '6']))⟩
      = some ⟨['3', '4'] ++ ['d', 'd'].map Char.toUpper ++ '-' :: (['2', '5'] ++ '-' :: ['3', '6'])⟩ :=
  claim_C6.1 ['3', '4'] ['d', 'd'] ['2', '5'] ['3', '6'] [' '] [' '] [' '] [' '] '/' '/'
    (by decide) (by decide) (by decide) (by decide) (by decide) (by decide) (by decide)
    (by decide) (by decide) (by decide) (by decide) (Or.inr rfl) (Or.inr rfl)

/-! ## C5: totality and fallback behavior of the normalizers -/

theorem mem_of_mem_pyStripChars {c : Char} {l : List Char}
    (h : c ∈ pyStripChars l) : c ∈ l := by
  unfold pyStripChars at h
  rw [List.mem_reverse] at h
  have h2 := List.dropWhile_subset isPySpace h
  rw [List.mem_reverse] at h2
  exact List.dropWhile_subset isPySpace h2

theorem searchDigits_none {l : List Char} (h : ∀ c ∈ l, c.isDigit = false) :
    searchDigits l = none := by
  induction l with
  | nil => rfl
  | cons c cs ih =>
    unfold searchDigits
    rw [if_neg (by simp [h c (List.mem_cons_self c cs)])]
    exact ih (fun x hx => h x (List.mem_cons_of_mem c hx))

theorem searchDigitsKg_none {l : List Char} (h : ∀ c ∈ l, c.isDigit = false) :
    searchDigitsKg l = none := by
  induction l with
  | nil => rfl
  | cons c cs ih =>
    unfold searchDigitsKg
    have hm : matchDigitsKgAt (c :: cs) = none := by
      unfold matchDigitsKgAt
      rw [List.takeWhile_cons_of_neg (by simp [h c (List.mem_cons_self c cs)])]
      rfl
    rw [hm]
    exact ih (fun x hx => h x (List.mem_cons_of_mem c hx))

/-- Counterexample for C5: the input "a / b" matches no pattern
`normalize_measurements` knows — neither the triple pattern nor the
compact pattern, on the raw input or on its cleaned form — yet the
function does not return it unchanged: it returns "a-b" (the separator
normalization is unconditional). -/
theorem claim_C5_counterexample :
    parseTriple ("a / b" : String).data = none ∧
    parseCompact ("a / b" : String).data = none ∧
    parseTriple (measurementsCleanup "a / b") = none ∧
    parseCompact (measurementsCleanup "a / b") = none ∧
    normalize_measurements "a / b" = some "a-b" ∧
    ("a-b" : String) ≠ "a / b" :=
  ⟨by decide, by decide, by decide, by decide, by decide, by decide⟩

/-- C5 (amended): every normalization function is total — in particular
nothing in it can raise — but an input that matches none of a function's
patterns is returned after that function's unconditional light cleanup
(strip, separator normalization, case folding), not necessarily
unchanged: `normalize_measurements` falls back to its cleaned input,
`normalize_weight` with no digit anywhere falls back to the stripped
input, `normalize_height` with neither pattern matching falls back to
the stripped input, and `normalize_bust_size` with no leading digit
falls back to the upper-cased stripped input. -/
theorem claim_C5 :
    (∀ s : String, s ≠ "" →
      parseTriple (measurementsCleanup s) = none →
      parseCompact (measurementsCleanup s) = none →
      normalize_measurements s = some ⟨measurementsCleanup s⟩) ∧
    (∀ s : String, s ≠ "" → (∀ c ∈ s.data, c.isDigit = false) →
      normalize_weight s = some (pyStrip s)) ∧
    (∀ s : String, s ≠ "" →
      searchCm (pyStrip s).data = none → searchFtIn (pyStrip s).data = none →
      normalize_height s = some (pyStrip s)) ∧
    (∀ s : String, s ≠ "" →
      ((upperStr (pyStrip s)).data.takeWhile Char.isDigit).isEmpty = true →
      normalize_bust_size s = some (upperStr (pyStrip s))) := by
  refine ⟨?_, ?_, ?_, ?_⟩
  · intro s hs h1 h2
    unfold normalize_measurements
    rw [if_neg hs]
    dsimp only
    rw [h1, h2]
  · intro s hs hnod
    have hsub : ∀ c ∈ (pyStrip s).data, c.isDigit = false := by
      intro c hc
      exact hnod c (mem_of_mem_pyStripChars hc)
    unfold normalize_weight
    rw [if_neg hs]
    dsimp only
    cases hkg : strContains (lowerStr (pyStrip s)) "kg" with
    | true => rw [searchDigitsKg_none hsub]; rfl
    | false => rw [searchDigits_none hsub]; rfl
  · intro s hs h1 h2
    unfold normalize_height
    rw [if_neg hs]
    dsimp only
    rw [h1, h2]
  · intro s hs hd
    unfold normalize_bust_size
    rw [if_neg hs]
    dsimp only
    rw [hd]
    simp

/-- Witness for C5 (amended): each fallback applied at a concrete
unmatched input. -/
theorem claim_C5_witness :
    normalize_measurements "a - b" = some ⟨measurementsCleanup "a - b"⟩ ∧
    normalize_weight " unknown " = some (pyStrip " unknown ") ∧
    normalize_height "xyz" = some (pyStrip "xyz") ∧
    normalize_bust_size "zz" = some (upperStr (pyStrip "zz")) :=
  ⟨claim_C5.1 "a - b" (by decide) (by decide) (by decide),
   claim_C5.2.1 " unknown " (by decide) (by decide),
   claim_C5.2.2.1 "xyz" (by decide) (by decide) (by decide),
   claim_C5.2.2.2 "zz" (by decide) (by decide)⟩

/-! ## Structural lemmas about `save_listing` -/

theorem resolve_store_spec (sn : String) (sid : Nat) (tn ld : String) (nm : Option String)
    (store : Store) (cache : LocCache) :
    (resolve_location_from_parsed sn sid tn ld nm store cache).2.1.listings = store.listings ∧
    (resolve_location_from_parsed sn sid tn ld nm store cache).2.1.schedules = store.schedules ∧
    (resolve_location_from_parsed sn sid tn ld nm store cache).2.1.sources = store.sources ∧
    (resolve_location_from_parsed sn sid tn ld nm store cache).2.1.tags = store.tags ∧
    (resolve_location_from_parsed sn sid tn ld nm store cache).2.1.listingTags = store.listingTags ∧
    (resolve_location_from_parsed sn sid tn ld nm store cache).2.1.nextScheduleId = store.nextScheduleId := by
  unfold resolve_location_from_parsed
  cases find_location_in_cache cache tn ld nm with
  | some loc => exact ⟨rfl, rfl, rfl, rfl, rfl, rfl⟩
  | none =>
    dsimp only
    split
    · exact ⟨rfl, rfl, rfl, rfl, rfl, rfl⟩
    · exact ⟨rfl, rfl, rfl, rfl, rfl, rfl⟩

theorem pse_frame (today sid lid : Nat) (st : ScraperState) (entry : ScheduleEntry) :
    (process_schedule_entry today sid lid st entry).store.listings = st.store.listings ∧
    (process_schedule_entry today sid lid st entry).store.sources = st.store.sources ∧
    (process_schedule_entry today sid lid st entry).store.tags = st.store.tags ∧
    (process_schedule_entry today sid lid st entry).store.listingTags = st.store.listingTags ∧
    (process_schedule_entry today sid lid st entry).result = st.result ∧
    (process_schedule_entry today sid lid st entry).config = st.config ∧
    (process_schedule_entry today sid lid st entry).pendingCommits = st.pendingCommits := by
  unfold process_schedule_entry
  dsimp only
  cases h : isOutcallLoc (effLocation entry) with
  | true => rw [if_pos rfl]; exact ⟨rfl, rfl, rfl, rfl, rfl, rfl, rfl⟩
  | false =>
    rw [if_neg (by simp)]
    dsimp only
    have hr := resolve_store_spec st.config.shortName sid
      (if strContains (pyStrip (effLocation entry)) "," then
        (pyStrip ⟨(splitCommaOnce (pyStrip (effLocation entry)).data).1⟩,
         pyStrip ⟨(splitCommaOnce (pyStrip (effLocation entry)).data).2⟩)
       else parse_sft_location_fallback (pyStrip (effLocation entry))).1
      (if strContains (pyStrip (effLocation entry)) "," then
        (pyStrip ⟨(splitCommaOnce (pyStrip (effLocation entry)).data).1⟩,
         pyStrip ⟨(splitCommaOnce (pyStrip (effLocation entry)).data).2⟩)
       else parse_sft_location_fallback (pyStrip (effLocation entry))).2
      (normalize_location_detail
        (if strContains (pyStrip (effLocation entry)) "," then
          (pyStrip ⟨(splitCommaOnce (pyStrip (effLocation entry)).data).1⟩,
           pyStrip ⟨(splitCommaOnce (pyStrip (effLocation entry)).data).2⟩)
         else parse_sft_location_fallback (pyStrip (effLocation entry))).2)
      st.store
      (if st.cacheLoaded then st.cache
       else load_location_cache (st.store.locations.filter (fun l => l.sourceId = sid)))
    exact ⟨hr.1, hr.2.2.1, hr.2.2.2.1, hr.2.2.2.2.1, rfl, rfl, rfl⟩

theorem pse_schedule_step (today sid lid : Nat) (st : ScraperState) (entry : ScheduleEntry) :
    (isOutcallLoc (effLocation entry) = true →
      process_schedule_entry today sid lid st entry = st) ∧
    (isOutcallLoc (effLocation entry) = false →
      ∃ row : ScheduleRow,
        (process_schedule_entry today sid lid st entry).store.schedules
          = st.store.schedules ++ [row] ∧
        row.listingId = lid ∧ row.dayOfWeek = entry.dayOfWeek ∧
        row.startTime = entry.startTime ∧ row.endTime = entry.endTime) := by
  constructor
  · intro h
    unfold process_schedule_entry
    dsimp only
    rw [if_pos h]
  · intro h
    unfold process_schedule_entry
    dsimp only
    rw [if_neg (by simp [h])]
    dsimp only
    have hr := resolve_store_spec st.config.shortName sid
      (if strContains (pyStrip (effLocation entry)) "," then
        (pyStrip ⟨(splitCommaOnce (pyStrip (effLocation entry)).data).1⟩,
         pyStrip ⟨(splitCommaOnce (pyStrip (effLocation entry)).data).2⟩)
       else parse_sft_location_fallback (pyStrip (effLocation entry))).1
      (if strContains (pyStrip (effLocation entry)) "," then
        (pyStrip ⟨(splitCommaOnce (pyStrip (effLocation entry)).data).1⟩,
         pyStrip ⟨(splitCommaOnce (pyStrip (effLocation entry)).data).2⟩)
       else parse_sft_location_fallback (pyStrip (effLocation entry))).2
      (normalize_location_detail
        (if strContains (pyStrip (effLocation entry)) "," then
          (pyStrip ⟨(splitCommaOnce (pyStrip (effLocation entry)).data).1⟩,
           pyStrip ⟨(splitCommaOnce (pyStrip (effLocation entry)).data).2⟩)
         else parse_sft_location_fallback (pyStrip (effLocation entry))).2)
      st.store
      (if st.cacheLoaded then st.cache
       else load_location_cache (st.store.locations.filter (fun l => l.sourceId = sid)))
    rw [hr.2.1]
    exact ⟨_, rfl, rfl, rfl, rfl, rfl⟩

theorem fold_pse_spec (today sid lid : Nat) (entries : List ScheduleEntry) :
    ∀ st : ScraperState,
    (entries.foldl (process_schedule_entry today sid lid) st).store.listings
        = st.store.listings ∧
    (entries.foldl (process_schedule_entry today sid lid) st).store.sources
        = st.store.sources ∧
    (entries.foldl (process_schedule_entry today sid lid) st).store.tags
        = st.store.tags ∧
    (entries.foldl (process_schedule_entry today sid lid) st).store.listingTags
        = st.store.listingTags ∧
    (entries.foldl (process_schedule_entry today sid lid) st).result = st.result ∧
    (entries.foldl (process_schedule_entry today sid lid) st).config = st.config ∧
    (entries.foldl (process_schedule_entry today sid lid) st).pendingCommits
        = st.pendingCommits ∧
    (∀ row ∈ (entries.foldl (process_schedule_entry today sid lid) st).store.schedules,
      row ∈ st.store.schedules ∨
      ∃ e ∈ entries, isOutcallLoc (effLocation e) = false ∧ row.listingId = lid ∧
        row.dayOfWeek = e.dayOfWeek ∧ row.startTime = e.startTime ∧
        row.endTime = e.endTime) ∧
    (∀ e ∈ entries, isOutcallLoc (effLocation e) = false →
      ∃ row ∈ (entries.foldl (process_schedule_entry today sid lid) st).store.schedules,
        row.listingId = lid ∧ row.dayOfWeek = e.dayOfWeek ∧
        row.startTime = e.startTime ∧ row.endTime = e.endTime) ∧
    (∀ row ∈ st.store.schedules,
      row ∈ (entries.foldl (process_schedule_entry today sid lid) st).store.schedules) := by
  induction entries with
  | nil =>
    intro st
    refine ⟨rfl, rfl, rfl, rfl, rfl, rfl, rfl, ?_, ?_, ?_⟩
    · intro row hrow; exact Or.inl hrow
    · intro e he; exact absurd he (List.not_mem_nil e)
    · intro row hrow; exact hrow
  | cons e0 rest ih =>
    intro st
    simp only [List.foldl_cons]
    have hframe := pse_frame today sid lid st e0
    have hstep := pse_schedule_step today sid lid st e0
    have hihAll := ih (process_schedule_entry today sid lid st e0)
    cases hoc : isOutcallLoc (effLocation e0) with
    | true =>
      rw [hstep.1 hoc] at hihAll ⊢
      obtain ⟨f1, f2, f3, f4, f5, f6, f7, g1, g2, g3⟩ := hihAll
      refine ⟨f1, f2, f3, f4, f5, f6, f7, ?_, ?_, g3⟩
      · intro row hrow
        rcases g1 row hrow with hold | ⟨e, he, hrest⟩
        · exact Or.inl hold
        · exact Or.inr ⟨e, List.mem_cons_of_mem e0 he, hrest⟩
      · intro e he hoce
        rcases List.mem_cons.mp he with rfl | he2
        · rw [hoc] at hoce; exact Bool.noConfusion hoce
        · exact g2 e he2 hoce
    | false =>
      obtain ⟨row0, hsch, hr1, hr2, hr3, hr4⟩ := hstep.2 hoc
      obtain ⟨f1, f2, f3, f4, f5, f6, f7, g1, g2, g3⟩ := hihAll
      refine ⟨by rw [f1, hframe.1], by rw [f2, hframe.2.1],
        by rw [f3, hframe.2.2.1], by rw [f4, hframe.2.2.2.1],
        by rw [f5, hframe.2.2.2.2.1], by rw [f6, hframe.2.2.2.2.2.1],
        by rw [f7, hframe.2.2.2.2.2.2], ?_, ?_, ?_⟩
      · intro row hrow
        rcases g1 row hrow with hmid | ⟨e, he, hrest⟩
        · rw [hsch] at hmid
          rcases List.mem_append.mp hmid with hold | hnew
          · exact Or.inl hold
          · rcases List.mem_singleton.mp hnew with rfl
            exact Or.inr ⟨e0, List.mem_cons_self e0 rest, hoc, hr1, hr2, hr3, hr4⟩
        · exact Or.inr ⟨e, List.mem_cons_of_mem e0 he, hrest⟩
      · intro e he hoce
        rcases List.mem_cons.mp he with rfl | he2
        · refine ⟨row0, g3 row0 (by rw [hsch]; exact List.mem_append_right _ (List.mem_singleton_self row0)), hr1, hr2, hr3, hr4⟩
        · exact g2 e he2 hoce
      · intro row hrow
        exact g3 row (by rw [hsch]; exact List.mem_append_left _ hrow)

theorem tags_fold_frame (lid : Nat) (ids : List Nat) (tagNames : List String) :
    ∀ store : Store,
    (tagNames.foldl (ensure_tag_step lid ids) store).schedules = store.schedules ∧
    (tagNames.foldl (ensure_tag_step lid ids) store).listings = store.listings ∧
    (tagNames.foldl (ensure_tag_step lid ids) store).sources = store.sources := by
  induction tagNames with
  | nil => intro store; exact ⟨rfl, rfl, rfl⟩
  | cons t ts ih =>
    intro store
    simp only [List.foldl_cons]
    have hstep : (ensure_tag_step lid ids store t).schedules = store.schedules ∧
        (ensure_tag_step lid ids store t).listings = store.listings ∧
        (ensure_tag_step lid ids store t).sources = store.sources := by
      unfold ensure_tag_step
      cases store.tags.find? (fun tg => tg.name = t) with
      | some tag =>
        dsimp only
        split
        · exact ⟨rfl, rfl, rfl⟩
        · exact ⟨rfl, rfl, rfl⟩
      | none =>
        dsimp only
        split
        · exact ⟨rfl, rfl, rfl⟩
        · exact ⟨rfl, rfl, rfl⟩
    have hih := ih (ensure_tag_step lid ids store t)
    exact ⟨hih.1.trans hstep.1, hih.2.1.trans hstep.2.1, hih.2.2.trans hstep.2.2⟩

theorem ensure_tags_frame (lid : Nat) (tagNames : List String) (store : Store) :
    (ensure_tags lid tagNames store).schedules = store.schedules ∧
    (ensure_tags lid tagNames store).listings = store.listings ∧
    (ensure_tags lid tagNames store).sources = store.sources := by
  unfold ensure_tags
  exact tags_fold_frame lid _ tagNames store

theorem get_or_create_source_frame (st : ScraperState) :
    (get_or_create_source st).2.listings = st.store.listings ∧
    (get_or_create_source st).2.schedules = st.store.schedules ∧
    (get_or_create_source st).2.tags = st.store.tags ∧
    (get_or_create_source st).2.listingTags = st.store.listingTags ∧
    (get_or_create_source st).2.locations = st.store.locations := by
  unfold get_or_create_source
  cases st.store.sources.find? (fun s => s.name = st.config.shortName) with
  | some s => exact ⟨rfl, rfl, rfl, rfl, rfl⟩
  | none => exact ⟨rfl, rfl, rfl, rfl, rfl⟩

theorem upsert_spec (source : SourceRow) (listing : ScrapedListing) (store0 : Store) :
    (upsert_listing_row source listing store0).2.2.schedules = store0.schedules ∧
    (upsert_listing_row source listing store0).2.2.sources = store0.sources ∧
    (upsert_listing_row source listing store0).2.2.tags = store0.tags ∧
    (upsert_listing_row source listing store0).2.2.listingTags = store0.listingTags ∧
    (∃ row ∈ (upsert_listing_row source listing store0).2.2.listings,
      row.id = (upsert_listing_row source listing store0).2.1 ∧
      row.name = listing.name ∧ row.tier = listing.tier ∧ row.age = listing.age ∧
      row.height = listing.height ∧ row.measurements = listing.measurements ∧
      row.isActive = true ∧ row.isExpired = false) ∧
    (∀ row ∈ store0.listings,
      ∃ row2 ∈ (upsert_listing_row source listing store0).2.2.listings,
        row2.name = row.name) ∧
    (∀ r, (upsert_listing_row source listing store0).1 = some r →
      (upsert_listing_row source listing store0).2.1 = r.id) := by
  unfold upsert_listing_row
  cases hfind : store0.listings.find? (fun l => l.name = listing.name ∧ l.sourceId = source.id) with
  | some row =>
    have hp := List.find?_some hfind
    have hmem := List.mem_of_find?_eq_some hfind
    simp only [decide_eq_true_eq] at hp
    dsimp only
    refine ⟨rfl, rfl, rfl, rfl, ?_, ?_, ?_⟩
    · refine ⟨updateFields row listing, ?_, ?_⟩
      · have := List.mem_map_of_mem
          (fun l => if l.id = row.id then updateFields l listing else l) hmem
        simpa using this
      · exact ⟨rfl, hp.1, rfl, rfl, rfl, rfl, rfl, rfl⟩
    · intro r hr
      refine ⟨if r.id = row.id then updateFields r listing else r,
        List.mem_map_of_mem _ hr, ?_⟩
      split
      · rfl
      · rfl
    · intro r hr
      injection hr with hr
      rw [← hr]
  | none =>
    dsimp only
    refine ⟨rfl, rfl, rfl, rfl, ?_, ?_, ?_⟩
    · exact ⟨_, List.mem_append_right _ (List.mem_singleton_self _),
        rfl, rfl, rfl, rfl, rfl, rfl, rfl, rfl⟩
    · intro r hr
      exact ⟨r, List.mem_append_left _ hr, rfl⟩
    · intro r hr
      exact absurd hr (by simp)

/-- C10: `save_listing` never persists a Schedule row for a schedule
entry whose (defaulted) location contains the substring "OUTCALL"
case-insensitively: every schedule row of the resulting store is either a
pre-existing row or derives from a non-OUTCALL entry of the scraped
listing; the remaining (non-OUTCALL) entries each produce a row, and the
listing's fields are saved normally. -/
theorem claim_C10 (today : Nat) (listing : ScrapedListing) (st : ScraperState) :
    (∀ row ∈ (save_listing today listing st).2.2.store.schedules,
      row ∈ st.store.schedules ∨
      ∃ e ∈ listing.schedules, isOutcallLoc (effLocation e) = false ∧
        row.dayOfWeek = e.dayOfWeek ∧ row.startTime = e.startTime ∧
        row.endTime = e.endTime) ∧
    (∀ e ∈ listing.schedules, isOutcallLoc (effLocation e) = false →
      ∃ row ∈ (save_listing today listing st).2.2.store.schedules,
        row.dayOfWeek = e.dayOfWeek ∧ row.startTime = e.startTime ∧
        row.endTime = e.endTime) ∧
    (∃ row ∈ (save_listing today listing st).2.2.store.listings,
      row.name = listing.name ∧ row.tier = listing.tier ∧ row.age = listing.age ∧
      row.height = listing.height ∧ row.measurements = listing.measurements ∧
      row.isActive = true ∧ row.isExpired = false) := by
  unfold save_listing
  dsimp only
  have hsf := get_or_create_source_frame st
  rcases hgs : get_or_create_source st with ⟨source, store0⟩
  rw [hgs] at hsf
  dsimp only at hsf ⊢
  have hu := upsert_spec source listing store0
  rcases hup : upsert_listing_row source listing store0 with ⟨existing, dbId, store1⟩
  rw [hup] at hu
  dsimp only at hu ⊢
  have hstore2 : ∀ store2 : Store,
      store2.listings = store1.listings →
      (∀ r ∈ store2.schedules, r ∈ store1.schedules) →
      (∀ row ∈ (ensure_tags dbId listing.tags
          ((listing.schedules.foldl (process_schedule_entry today source.id dbId)
            { st with store := store2 }).store)).schedules,
        row ∈ st.store.schedules ∨
        ∃ e ∈ listing.schedules, isOutcallLoc (effLocation e) = false ∧
          row.dayOfWeek = e.dayOfWeek ∧ row.startTime = e.startTime ∧
          row.endTime = e.endTime) ∧
      (∀ e ∈ listing.schedules, isOutcallLoc (effLocation e) = false →
        ∃ row ∈ (ensure_tags dbId listing.tags
            ((listing.schedules.foldl (process_schedule_entry today source.id dbId)
              { st with store := store2 }).store)).schedules,
          row.dayOfWeek = e.dayOfWeek ∧ row.startTime = e.startTime ∧
          row.endTime = e.endTime) ∧
      (∃ row ∈ (ensure_tags dbId listing.tags
          ((listing.schedules.foldl (process_schedule_entry today source.id dbId)
            { st with store := store2 }).store)).listings,
        row.name = listing.name ∧ row.tier = listing.tier ∧ row.age = listing.age ∧
        row.height = listing.height ∧ row.measurements = listing.measurements ∧
        row.isActive = true ∧ row.isExpired = false) := by
    intro store2 h2l h2s
    have hfold := fold_pse_spec today source.id dbId listing.schedules
      { st with store := store2 }
    have het := ensure_tags_frame dbId listing.tags
      ((listing.schedules.foldl (process_schedule_entry today source.id dbId)
        { st with store := store2 }).store)
    refine ⟨?_, ?_, ?_⟩
    · intro row hrow
      rw [het.1] at hrow
      rcases hfold.2.2.2.2.2.2.2.1 row hrow with hmid | ⟨e, he, hrest⟩
      · have : row ∈ store1.schedules := h2s row hmid
        rw [hu.1, hsf.2.1] at this
        exact Or.inl this
      · exact Or.inr ⟨e, he, hrest.1, hrest.2.2.1, hrest.2.2.2.1, hrest.2.2.2.2⟩
    · intro e he hoce
      obtain ⟨row, hrowmem, _, hd, hst, hen⟩ := hfold.2.2.2.2.2.2.2.2.1 e he hoce
      exact ⟨row, by rw [het.1]; exact hrowmem, hd, hst, hen⟩
    · obtain ⟨row, hrowmem, hid, hname, htier, hage, hht, hme, hac, hex⟩ := hu.2.2.2.2.1
      refine ⟨row, ?_, hname, htier, hage, hht, hme, hac, hex⟩
      rw [het.2.1, hfold.1, h2l]
      exact hrowmem
  cases existing with
  | none =>
    dsimp only [Option.isNone]
    rw [if_pos rfl]
    exact hstore2 store1 rfl (fun r hr => hr)
  | some oldRow =>
    dsimp only [Option.isNone]
    rw [if_neg (by simp)]
    exact hstore2 _ rfl (fun r hr => List.mem_of_mem_filter hr)

/-- Witness for C10: a concrete save with one OUTCALL entry and one
normal entry — the normal entry's row is present. -/
theorem claim_C10_witness :
    ∃ row ∈ (save_listing 0
      { name := "Amy", profileUrl := "amy", source := "SFT",
        schedules := [
          { dayOfWeek := some "Monday", location := some "OUTCALL Toronto" },
          { dayOfWeek := some "Tuesday", location := some "Vaughan" }] }
      (initScraper { name := "SexyFriendsToronto", shortName := "SFT" } {} 0)).2.2.store.schedules,
      row.dayOfWeek = some "Tuesday" ∧ row.startTime = none ∧ row.endTime = none :=
  (claim_C10 0 _ _).2.1
    { dayOfWeek := some "Tuesday", location := some "Vaughan" } (by decide) (by decide)

/-- Counterexample for C2: a re-scrape of an existing listing whose only
newly scraped schedule entry is an OUTCALL one deletes the old Schedule
rows but inserts no row at all — so "one row per newly scraped schedule
entry" fails (OUTCALL entries are silently skipped). -/
theorem claim_C2_counterexample :
    ({ name := "Amy", profileUrl := "amy", source := "SFT",
       schedules := [{ dayOfWeek := some "Monday", location := some "OUTCALL",
                       startTime := none, endTime := none }] } : ScrapedListing).schedules.length = 1 ∧
    (save_listing 0
      { name := "Amy", profileUrl := "amy", source := "SFT",
        schedules := [{ dayOfWeek := some "Monday", location := some "OUTCALL",
                        startTime := none, endTime := none }] }
      { config := { name := "SexyFriendsToronto", shortName := "SFT" },
        store := { sources := [{ id := 1, name := "SFT" }],
                   listings := [{ id := 1, sourceId := 1, name := "Amy", profileUrl := "amy" }],
                   schedules := [{ id := 1, listingId := 1, dayOfWeek := some "Monday",
                                   date := none, locationId := none,
                                   startTime := none, endTime := none }],
                   nextSourceId := 2, nextListingId := 2, nextScheduleId := 2 },
        result := { source := "SFT", startedAt := 0 } }).1 = false ∧
    (save_listing 0
      { name := "Amy", profileUrl := "amy", source := "SFT",
        schedules := [{ dayOfWeek := some "Monday", location := some "OUTCALL",
                        startTime := none, endTime := none }] }
      { config := { name := "SexyFriendsToronto", shortName := "SFT" },
        store := { sources := [{ id := 1, name := "SFT" }],
                   listings := [{ id := 1, sourceId := 1, name := "Amy", profileUrl := "amy" }],
                   schedules := [{ id := 1, listingId := 1, dayOfWeek := some "Monday",
                                   date := none, locationId := none,
                                   startTime := none, endTime := none }],
                   nextSourceId := 2, nextListingId := 2, nextScheduleId := 2 },
        result := { source := "SFT", startedAt := 0 } }).2.2.store.schedules = [] :=
  ⟨by decide, by decide, by decide⟩

/-- C2 (amended): on a successful re-scrape of an existing listing,
`save_listing` first deletes all of the listing's Schedule rows and then
inserts one row per newly scraped non-OUTCALL schedule entry (entries
whose location contains "OUTCALL" case-insensitively are skipped);
every Schedule row of the listing after the save derives from the new
scrape, so a re-scrape that omits a previously-seen day-of-week leaves
no Schedule row of that listing for that day. -/
theorem claim_C2 (today : Nat) (listing : ScrapedListing) (st : ScraperState)
    (oldRow : ListingRow)
    (hold : (save_listing today listing st).2.1 = some oldRow) :
    (∀ row ∈ (save_listing today listing st).2.2.store.schedules,
      row.listingId = oldRow.id →
      ∃ e ∈ listing.schedules, isOutcallLoc (effLocation e) = false ∧
        row.dayOfWeek = e.dayOfWeek ∧ row.startTime = e.startTime ∧
        row.endTime = e.endTime) ∧
    (∀ e ∈ listing.schedules, isOutcallLoc (effLocation e) = false →
      ∃ row ∈ (save_listing today listing st).2.2.store.schedules,
        row.listingId = oldRow.id ∧ row.dayOfWeek = e.dayOfWeek ∧
        row.startTime = e.startTime ∧ row.endTime = e.endTime) ∧
    (∀ day : String, (∀ e ∈ listing.schedules, e.dayOfWeek ≠ some day) →
      ∀ row ∈ (save_listing today listing st).2.2.store.schedules,
        row.listingId = oldRow.id → row.dayOfWeek ≠ some day) := by
  have hold2 : (upsert_listing_row (get_or_create_source st).1 listing
      (get_or_create_source st).2).1 = some oldRow := hold
  unfold save_listing
  dsimp only
  rcases hgs : get_or_create_source st with ⟨source, store0⟩
  rw [hgs] at hold2
  dsimp only at hold2 ⊢
  have hu := upsert_spec source listing store0
  rcases hup : upsert_listing_row source listing store0 with ⟨existing, dbId, store1⟩
  rw [hup] at hu hold2
  dsimp only at hu hold2 ⊢
  subst hold2
  have hdb : dbId = oldRow.id := hu.2.2.2.2.2.2 oldRow rfl
  dsimp only [Option.isNone]
  rw [if_neg (by simp)]
  have hfold := fold_pse_spec today source.id dbId listing.schedules
    { st with store :=
      { store1 with schedules := store1.schedules.filter (fun r => r.listingId ≠ dbId) } }
  have het := ensure_tags_frame dbId listing.tags
    ((listing.schedules.foldl (process_schedule_entry today source.id dbId)
      { st with store :=
        { store1 with schedules := store1.schedules.filter (fun r => r.listingId ≠ dbId) } }).store)
  have main :
      (∀ row ∈ (listing.schedules.foldl (process_schedule_entry today source.id dbId)
          { st with store :=
            { store1 with schedules := store1.schedules.filter (fun r => r.listingId ≠ dbId) } }).store.schedules,
        row.listingId = oldRow.id →
        ∃ e ∈ listing.schedules, isOutcallLoc (effLocation e) = false ∧
          row.dayOfWeek = e.dayOfWeek ∧ row.startTime = e.startTime ∧
          row.endTime = e.endTime) := by
    intro row hrow hid
    rcases hfold.2.2.2.2.2.2.2.1 row hrow with hmid | ⟨e, he, hrest⟩
    · exfalso
      have hprop := List.of_mem_filter hmid
      rw [hid, hdb] at hprop
      simp at hprop
    · exact ⟨e, he, hrest.1, hrest.2.2.1, hrest.2.2.2.1, hrest.2.2.2.2⟩
  refine ⟨?_, ?_, ?_⟩
  · intro row hrow hid
    rw [het.1] at hrow
    exact main row hrow hid
  · intro e he hoce
    obtain ⟨row, hrowmem, hlid, hd, hs2, he2⟩ := hfold.2.2.2.2.2.2.2.2.1 e he hoce
    exact ⟨row, by rw [het.1]; exact hrowmem, by rw [hlid, hdb], hd, hs2, he2⟩
  · intro day hday row hrow hid
    rw [het.1] at hrow
    obtain ⟨e, he, _, hd, _, _⟩ := main row hrow hid
    rw [hd]
    exact hday e he

/-- Witness for C2 (amended): a concrete re-scrape of the existing
listing "Amy" that omits Monday (present before) leaves no Monday row
for that listing. -/
theorem claim_C2_witness :
    ∃ row ∈ (save_listing 0
      { name := "Amy", profileUrl := "amy", source := "SFT",
        schedules := [{ dayOfWeek := some "Tuesday", location := some "Vaughan",
                        startTime := none, endTime := none }] }
      { config := { name := "SexyFriendsToronto", shortName := "SFT" },
        store := { sources := [{ id := 1, name := "SFT" }],
                   listings := [{ id := 1, sourceId := 1, name := "Amy", profileUrl := "amy" }],
                   schedules := [{ id := 1, listingId := 1, dayOfWeek := some "Monday",
                                   date := none, locationId := none,
                                   startTime := none, endTime := none }],
                   nextSourceId := 2, nextListingId := 2, nextScheduleId := 2 },
        result := { source := "SFT", startedAt := 0 } }).2.2.store.schedules,
      row.listingId = ({ id := 1, sourceId := 1, name := "Amy",
                         profileUrl := "amy" } : ListingRow).id ∧
      row.dayOfWeek = some "Tuesday" ∧ row.startTime = none ∧ row.endTime = none :=
  (claim_C2 0 _ _ { id := 1, sourceId := 1, name := "Amy", profileUrl := "amy" }
    (by decide)).2.1
    { dayOfWeek := some "Tuesday", location := some "Vaughan",
      startTime := none, endTime := none } (by decide) (by decide)

/-! ## Lemmas about the orchestrating `run` -/

theorem save_listing_c1 (today : Nat) (listing : ScrapedListing) (st : ScraperState) :
    (save_listing today listing st).2.2.result = st.result ∧
    (save_listing today listing st).2.2.config = st.config ∧
    (∃ row ∈ (save_listing today listing st).2.2.store.listings, row.name = listing.name) ∧
    (∀ row ∈ st.store.listings,
      ∃ row2 ∈ (save_listing today listing st).2.2.store.listings, row2.name = row.name) := by
  unfold save_listing
  dsimp only
  have hsf := get_or_create_source_frame st
  rcases hgs : get_or_create_source st with ⟨source, store0⟩
  rw [hgs] at hsf
  dsimp only at hsf ⊢
  have hu := upsert_spec source listing store0
  rcases hup : upsert_listing_row source listing store0 with ⟨existing, dbId, store1⟩
  rw [hup] at hu
  dsimp only at hu ⊢
  have main : ∀ store2 : Store, store2.listings = store1.listings →
      ((listing.schedules.foldl (process_schedule_entry today source.id dbId)
          { st with store := store2 }).result = st.result ∧
       (listing.schedules.foldl (process_schedule_entry today source.id dbId)
          { st with store := store2 }).config = st.config ∧
       (∃ row ∈ (ensure_tags dbId listing.tags
          ((listing.schedules.foldl (process_schedule_entry today source.id dbId)
            { st with store := store2 }).store)).listings, row.name = listing.name) ∧
       (∀ row ∈ st.store.listings,
         ∃ row2 ∈ (ensure_tags dbId listing.tags
            ((listing.schedules.foldl (process_schedule_entry today source.id dbId)
              { st with store := store2 }).store)).listings, row2.name = row.name)) := by
    intro store2 h2l
    have hfold := fold_pse_spec today source.id dbId listing.schedules
      { st with store := store2 }
    have het := ensure_tags_frame dbId listing.tags
      ((listing.schedules.foldl (process_schedule_entry today source.id dbId)
        { st with store := store2 }).store)
    refine ⟨hfold.2.2.2.2.1, hfold.2.2.2.2.2.1, ?_, ?_⟩
    · obtain ⟨row, hrow, _, hname, _⟩ := hu.2.2.2.2.1
      exact ⟨row, by rw [het.2.1, hfold.1, h2l]; exact hrow, hname⟩
    · intro row hrow
      rw [← hsf.1] at hrow
      obtain ⟨row2, hrow2, hname2⟩ := hu.2.2.2.2.2.1 row hrow
      exact ⟨row2, by rw [het.2.1, hfold.1, h2l]; exact hrow2, hname2⟩
  cases existing with
  | none =>
    dsimp only [Option.isNone]
    rw [if_pos rfl]
    exact main store1 rfl
  | some oldRow =>
    dsimp only [Option.isNone]
    rw [if_neg (by simp)]
    exact main _ rfl

theorem gp_aux (items : List ScheduleItem) :
    ∀ acc : List (String × List ScheduleItem),
    (∀ g ∈ acc, ∀ j ∈ items, g.1 ≠ j.profileUrl) →
    (items.map (fun j => j.profileUrl)).Nodup →
    items.foldl (fun acc it =>
      if acc.any (fun g => g.1 = it.profileUrl) then
        acc.map (fun g => if g.1 = it.profileUrl then (g.1, g.2 ++ [it]) else g)
      else acc ++ [(it.profileUrl, [it])]) acc
      = acc ++ items.map (fun j => (j.profileUrl, [j])) := by
  induction items with
  | nil => intro acc _ _; simp
  | cons i rest ih =>
    intro acc hdisj hnd
    simp only [List.map_cons, List.nodup_cons] at hnd
    simp only [List.foldl_cons]
    have hnc : ¬ ((acc.any fun g => g.1 = i.profileUrl) = true) := by
      simp only [List.any_eq_true, decide_eq_true_eq, not_exists, not_and]
      intro g hg
      exact hdisj g hg i (List.mem_cons_self i rest)
    rw [if_neg hnc]
    have hd2 : ∀ g ∈ acc ++ [(i.profileUrl, [i])], ∀ j ∈ rest, g.1 ≠ j.profileUrl := by
      intro g hg j hj
      rcases List.mem_append.mp hg with hga | hgi
      · exact hdisj g hga j (List.mem_cons_of_mem i hj)
      · rcases List.mem_singleton.mp hgi with rfl
        intro hc
        have heq : j.profileUrl = i.profileUrl := hc.symm
        exact hnd.1 (List.mem_map.mpr ⟨j, hj, heq⟩)
    rw [ih (acc ++ [(i.profileUrl, [i])]) hd2 hnd.2]
    simp

theorem group_profiles_nodup (items : List ScheduleItem)
    (h : (items.map (fun i => i.profileUrl)).Nodup) :
    group_profiles items = items.map (fun i => (i.profileUrl, [i])) := by
  unfold group_profiles
  have := gp_aux items [] (fun g hg => absurd hg (List.not_mem_nil g)) h
  simpa using this

theorem fold_profiles_spec (today : Nat) (fetch : String → Except String ProfileData)
    (gs : List (String × List ScheduleItem)) :
    ∀ st : ScraperState, (∀ g ∈ gs, g.2 ≠ []) →
    (gs.foldl (process_profile today fetch) st).result.total = st.result.total ∧
    (gs.foldl (process_profile today fetch) st).result.errors
      = st.result.errors + gs.countP (profileFails fetch) ∧
    (gs.foldl (process_profile today fetch) st).result.errorDetails
      = st.result.errorDetails ++ (gs.filter (profileFails fetch)).map
          (fun g => { profileUrl := some g.1, error := profileErrMsg fetch g }) ∧
    (∀ g ∈ gs, profileFails fetch g = false →
      ∃ row ∈ (gs.foldl (process_profile today fetch) st).store.listings,
        row.name = profileName fetch g) ∧
    (∀ row ∈ st.store.listings,
      ∃ row2 ∈ (gs.foldl (process_profile today fetch) st).store.listings,
        row2.name = row.name) := by
  induction gs with
  | nil =>
    intro st _
    refine ⟨rfl, by simp, by simp, ?_, ?_⟩
    · intro g hg; exact absurd hg (List.not_mem_nil g)
    · intro row hrow; exact ⟨row, hrow, rfl⟩
  | cons g0 rest ih =>
    intro st hne
    have hg0ne : g0.2 ≠ [] := hne g0 (List.mem_cons_self g0 rest)
    simp only [List.foldl_cons]
    have hstep : (process_profile today fetch st g0).result.total = st.result.total ∧
        (process_profile today fetch st g0).result.errors
          = st.result.errors + (if profileFails fetch g0 then 1 else 0) ∧
        (process_profile today fetch st g0).result.errorDetails
          = st.result.errorDetails ++ (if profileFails fetch g0 then
              [({ profileUrl := some g0.1, error := profileErrMsg fetch g0 } : ErrorDetail)]
            else []) ∧
        (profileFails fetch g0 = false →
          ∃ row ∈ (process_profile today fetch st g0).store.listings,
            row.name = profileName fetch g0) ∧
        (∀ row ∈ st.store.listings,
          ∃ row2 ∈ (process_profile today fetch st g0).store.listings,
            row2.name = row.name) := by
      unfold process_profile
      cases hg2 : g0.2 with
      | nil => exact absurd hg2 hg0ne
      | cons i0 irest =>
        cases hf : fetch g0.1 with
        | error e =>
          refine ⟨rfl, ?_, ?_, ?_, ?_⟩
          · simp [profileFails, hf]
          · simp [profileFails, profileErrMsg, hf]
          · intro hok; simp [profileFails, hf] at hok
          · intro row hrow; exact ⟨row, hrow, rfl⟩
        | ok pd =>
          dsimp only
          have hsl := save_listing_c1 today
            (normalize_listing st.config.shortName i0 pd (some (i0 :: irest))) st
          have hname : (normalize_listing st.config.shortName i0 pd (some (i0 :: irest))).name
              = profileName fetch g0 := by
            simp only [normalize_listing, profileName, hg2, hf]
          have hpf : profileFails fetch g0 = false := by
            simp [profileFails, hf]
          have hfin : ∀ (b : Bool) (s1 : ScraperState),
              (if b then { s1 with result := { s1.result with new := s1.result.new + 1 } }
               else { s1 with result :=
                 { s1.result with updated := s1.result.updated + 1 } }).result.total
                = s1.result.total ∧
              (if b then { s1 with result := { s1.result with new := s1.result.new + 1 } }
               else { s1 with result :=
                 { s1.result with updated := s1.result.updated + 1 } }).result.errors
                = s1.result.errors ∧
              (if b then { s1 with result := { s1.result with new := s1.result.new + 1 } }
               else { s1 with result :=
                 { s1.result with updated := s1.result.updated + 1 } }).result.errorDetails
                = s1.result.errorDetails ∧
              (if b then { s1 with result := { s1.result with new := s1.result.new + 1 } }
               else { s1 with result :=
                 { s1.result with updated := s1.result.updated + 1 } }).store
                = s1.store := by
            intro b s1
            cases b
            · exact ⟨rfl, rfl, rfl, rfl⟩
            · exact ⟨rfl, rfl, rfl, rfl⟩
          refine ⟨?_, ?_, ?_, ?_, ?_⟩
          · rw [(hfin _ _).1, hsl.1]
          · rw [(hfin _ _).2.1, hsl.1]
            simp [hpf]
          · rw [(hfin _ _).2.2.1, hsl.1]
            simp [hpf]
          · intro _
            obtain ⟨row, hrow, hn⟩ := hsl.2.2.1
            refine ⟨row, ?_, hn.trans hname⟩
            rw [(hfin _ _).2.2.2]
            exact hrow
          · intro row hrow
            obtain ⟨row2, hrow2, hn2⟩ := hsl.2.2.2 row hrow
            refine ⟨row2, ?_, hn2⟩
            rw [(hfin _ _).2.2.2]
            exact hrow2
    have hih := ih (process_profile today fetch st g0)
      (fun g hg => hne g (List.mem_cons_of_mem g0 hg))
    refine ⟨?_, ?_, ?_, ?_, ?_⟩
    · exact hih.1.trans hstep.1
    · rw [hih.2.1, hstep.2.1, List.countP_cons]
      cases hpf2 : profileFails fetch g0 <;> (simp; try omega)
    · rw [hih.2.2.1, hstep.2.2.1, List.filter_cons]
      cases hpf2 : profileFails fetch g0 <;> simp
    · intro g hg hpf
      rcases List.mem_cons.mp hg with rfl | hg2
      · obtain ⟨row, hrow, hn⟩ := hstep.2.2.2.1 hpf
        obtain ⟨row2, hrow2, hn2⟩ := hih.2.2.2.2 row hrow
        exact ⟨row2, hrow2, hn2.trans hn⟩
      · exact hih.2.2.2.1 g hg2 hpf
    · intro row hrow
      obtain ⟨r1, hr1, hn1⟩ := hstep.2.2.2.2 row hrow
      obtain ⟨r2, hr2, hn2⟩ := hih.2.2.2.2 r1 hr1
      exact ⟨r2, hr2, hn2.trans hn1⟩

theorem filter_unique (u0 : String) (p : ScheduleItem → Bool) (l : List ScheduleItem) :
    (∀ i ∈ l, (p i = true ↔ i.profileUrl = u0)) →
    (l.map fun i => i.profileUrl).Nodup →
    u0 ∈ l.map (fun i => i.profileUrl) →
    ∃ i0, i0 ∈ l ∧ i0.profileUrl = u0 ∧ l.filter p = [i0] := by
  induction l with
  | nil => intro _ _ hmem; exact absurd hmem (List.not_mem_nil u0)
  | cons i rest ih =>
    intro hiff hnd hmem
    simp only [List.map_cons, List.nodup_cons] at hnd hmem
    rcases List.mem_cons.mp hmem with heq | hmem2
    · have hpi : p i = true := (hiff i (List.mem_cons_self i rest)).mpr heq.symm
      have hrest0 : rest.filter p = [] := by
        rw [List.filter_eq_nil_iff]
        intro j hj hpj
        have hj0 : j.profileUrl = u0 := (hiff j (List.mem_cons_of_mem i hj)).mp hpj
        have : i.profileUrl ∈ rest.map fun k => k.profileUrl :=
          List.mem_map.mpr ⟨j, hj, hj0.trans heq⟩
        exact hnd.1 this
      refine ⟨i, List.mem_cons_self i rest, heq.symm, ?_⟩
      simp [List.filter_cons, hpi, hrest0]
    · have hpi : p i = false := by
        cases hpi : p i
        · rfl
        · exfalso
          have hiu : i.profileUrl = u0 := (hiff i (List.mem_cons_self i rest)).mp hpi
          exact hnd.1 ((hiu.trans rfl).symm ▸ hmem2)
      obtain ⟨i0, hi0, hurl, hfilt⟩ :=
        ih (fun j hj => hiff j (List.mem_cons_of_mem i hj)) hnd.2 hmem2
      refine ⟨i0, List.mem_cons_of_mem i hi0, hurl, ?_⟩
      simp [List.filter_cons, hpi, hfilt]

theorem run_fold_c1 (today : Nat) (fetch : String → Except String ProfileData)
    (items : List ScheduleItem) (u0 e0 : String) (s1 : ScraperState)
    (herr : s1.result.errors = 0) (hed : s1.result.errorDetails = [])
    (hnd : (items.map fun i => i.profileUrl).Nodup)
    (hmem : u0 ∈ items.map fun i => i.profileUrl)
    (hfail : fetch u0 = Except.error e0)
    (hok : ∀ i ∈ items, i.profileUrl ≠ u0 → ∃ pd, fetch i.profileUrl = Except.ok pd) :
    ((items.map fun i => (i.profileUrl, [i])).foldl
        (process_profile today fetch) s1).result.total = s1.result.total ∧
    ((items.map fun i => (i.profileUrl, [i])).foldl
        (process_profile today fetch) s1).result.errors = 1 ∧
    ((items.map fun i => (i.profileUrl, [i])).foldl
        (process_profile today fetch) s1).result.errorDetails
      = [{ profileUrl := some u0, error := e0 }] ∧
    (∀ i ∈ items, i.profileUrl ≠ u0 →
      ∃ row ∈ ((items.map fun i => (i.profileUrl, [i])).foldl
          (process_profile today fetch) s1).store.listings,
        row.name = profileName fetch (i.profileUrl, [i])) := by
  have hne : ∀ g ∈ items.map (fun i => (i.profileUrl, [i])), g.2 ≠ [] := by
    intro g hg
    obtain ⟨i, _, rfl⟩ := List.mem_map.mp hg
    simp
  have hfold := fold_profiles_spec today fetch
    (items.map fun i => (i.profileUrl, [i])) s1 hne
  have hiff : ∀ i ∈ items,
      ((profileFails fetch ∘ fun j => (j.profileUrl, [j])) i = true ↔ i.profileUrl = u0) := by
    intro i hi
    constructor
    · intro hp
      by_contra hne2
      obtain ⟨pd, hpd⟩ := hok i hi hne2
      simp [Function.comp, profileFails, hpd] at hp
    · intro he
      simp [Function.comp, profileFails, he, hfail]
  obtain ⟨i0, hi0mem, hi0url, hfilt⟩ :=
    filter_unique u0 (profileFails fetch ∘ fun j => (j.profileUrl, [j])) items hiff hnd hmem
  have hfg : (items.map fun i => (i.profileUrl, [i])).filter (profileFails fetch)
      = [(i0.profileUrl, [i0])] := by
    rw [List.filter_map, hfilt]
    rfl
  have hcnt : (items.map fun i => (i.profileUrl, [i])).countP (profileFails fetch) = 1 := by
    rw [List.countP_eq_length_filter, hfg]
    rfl
  refine ⟨hfold.1, ?_, ?_, ?_⟩
  · rw [hfold.2.1, herr, hcnt]
  · rw [hfold.2.2.1, hed, hfg]
    simp [profileErrMsg, hi0url, hfail]
  · intro i hi hneu
    have hgmem : (i.profileUrl, [i]) ∈ items.map (fun j => (j.profileUrl, [j])) :=
      List.mem_map.mpr ⟨i, hi, rfl⟩
    have hpf : profileFails fetch (i.profileUrl, [i]) = false := by
      obtain ⟨pd, hpd⟩ := hok i hi hneu
      simp [profileFails, hpd]
    exact hfold.2.2.2.1 (i.profileUrl, [i]) hgmem hpf

/-- C1: a run whose schedule page yields 5 items on 5 distinct profile
urls, exactly one of which always fails to fetch, is not aborted
(nothing is re-raised): the failure is caught and recorded as the single
entry of the error list, the result reports total = 5 and errors = 1,
and each of the other four profiles is persisted as a Listing row under
its normalized name. -/
theorem claim_C1 (today doneAt startedAt : Nat) (cfg : SiteConfig) (store : Store)
    (items : List ScheduleItem) (fetch : String → Except String ProfileData)
    (u0 e0 : String)
    (h5 : items.length = 5)
    (hnd : (items.map fun i => i.profileUrl).Nodup)
    (hmem : u0 ∈ items.map fun i => i.profileUrl)
    (hfail : fetch u0 = Except.error e0)
    (hok : ∀ i ∈ items, i.profileUrl ≠ u0 → ∃ pd, fetch i.profileUrl = Except.ok pd) :
    (run today doneAt (Except.ok items) fetch (initScraper cfg store startedAt)).2 = none ∧
    (run today doneAt (Except.ok items) fetch
      (initScraper cfg store startedAt)).1.result.total = 5 ∧
    (run today doneAt (Except.ok items) fetch
      (initScraper cfg store startedAt)).1.result.errors = 1 ∧
    (run today doneAt (Except.ok items) fetch
      (initScraper cfg store startedAt)).1.result.errorDetails
      = [{ profileUrl := some u0, error := e0 }] ∧
    (∀ i ∈ items, i.profileUrl ≠ u0 →
      ∃ row ∈ (run today doneAt (Except.ok items) fetch
          (initScraper cfg store startedAt)).1.store.listings,
        row.name = profileName fetch (i.profileUrl, [i])) := by
  have hcore := run_fold_c1 today fetch items u0 e0
    { initScraper cfg store startedAt with
      result := { (initScraper cfg store startedAt).result with total := items.length } }
    rfl rfl hnd hmem hfail hok
  unfold run
  dsimp only
  rw [group_profiles_nodup items hnd]
  exact ⟨rfl, hcore.1.trans h5, hcore.2.1, hcore.2.2.1, hcore.2.2.2⟩

/-- Witness for C1: a concrete run of 5 schedule items on distinct
profile urls where exactly the third profile's fetch raises — the run
returns normally with total 5, errors 1 and the one failure recorded. -/
theorem claim_C1_witness :
    (run 0 9 (Except.ok
      [{ name := "A1", profileUrl := "u1", dayOfWeek := "Monday" },
       { name := "A2", profileUrl := "u2", dayOfWeek := "Tuesday" },
       { name := "A3", profileUrl := "u3", dayOfWeek := "Wednesday" },
       { name := "A4", profileUrl := "u4", dayOfWeek := "Thursday" },
       { name := "A5", profileUrl := "u5", dayOfWeek := "Friday" }])
      (fun u => if u = "u3" then Except.error "boom" else Except.ok {})
      (initScraper { name := "SexyFriendsToronto", shortName := "SFT" } {} 0)).2 = none ∧
    (run 0 9 (Except.ok
      [{ name := "A1", profileUrl := "u1", dayOfWeek := "Monday" },
       { name := "A2", profileUrl := "u2", dayOfWeek := "Tuesday" },
       { name := "A3", profileUrl := "u3", dayOfWeek := "Wednesday" },
       { name := "A4", profileUrl := "u4", dayOfWeek := "Thursday" },
       { name := "A5", profileUrl := "u5", dayOfWeek := "Friday" }])
      (fun u => if u = "u3" then Except.error "boom" else Except.ok {})
      (initScraper { name := "SexyFriendsToronto", shortName := "SFT" } {} 0)).1.result.total
      = 5 ∧
    (run 0 9 (Except.ok
      [{ name := "A1", profileUrl := "u1", dayOfWeek := "Monday" },
       { name := "A2", profileUrl := "u2", dayOfWeek := "Tuesday" },
       { name := "A3", profileUrl := "u3", dayOfWeek := "Wednesday" },
       { name := "A4", profileUrl := "u4", dayOfWeek := "Thursday" },
       { name := "A5", profileUrl := "u5", dayOfWeek := "Friday" }])
      (fun u => if u = "u3" then Except.error "boom" else Except.ok {})
      (initScraper { name := "SexyFriendsToronto", shortName := "SFT" } {} 0)).1.result.errors
      = 1 ∧
    (run 0 9 (Except.ok
      [{ name := "A1", profileUrl := "u1", dayOfWeek := "Monday" },
       { name := "A2", profileUrl := "u2", dayOfWeek := "Tuesday" },
       { name := "A3", profileUrl := "u3", dayOfWeek := "Wednesday" },
       { name := "A4", profileUrl := "u4", dayOfWeek := "Thursday" },
       { name := "A5", profileUrl := "u5", dayOfWeek := "Friday" }])
      (fun u => if u = "u3" then Except.error "boom" else Except.ok {})
      (initScraper { name := "SexyFriendsToronto", shortName := "SFT" } {} 0)).1.result.errorDetails
      = [{ profileUrl := some "u3", error := "boom" }] := by
  have h := claim_C1 0 9 0 { name := "SexyFriendsToronto", shortName := "SFT" } {}
    [{ name := "A1", profileUrl := "u1", dayOfWeek := "Monday" },
     { name := "A2", profileUrl := "u2", dayOfWeek := "Tuesday" },
     { name := "A3", profileUrl := "u3", dayOfWeek := "Wednesday" },
     { name := "A4", profileUrl := "u4", dayOfWeek := "Thursday" },
     { name := "A5", profileUrl := "u5", dayOfWeek := "Friday" }]
    (fun u => if u = "u3" then Except.error "boom" else Except.ok {})
    "u3" "boom" (by decide) (by decide) (by decide) rfl
    (fun i _ hne => ⟨{}, if_neg hne⟩)
  exact ⟨h.1, h.2.1, h.2.2.1, h.2.2.2.1⟩

/-! ## Witness for C7 continuation -/

/-- Witness for C7 (amended): a 200 response succeeds, a 500 response with
a small body is a hard error, and a run of all-failing attempts raises. -/
theorem claim_C7_witness :
    staticFetchDecision ⟨200, "hi"⟩ = Except.ok "hi" ∧
    staticFetchDecision ⟨500, "x"⟩ = Except.error ("HTTP status " ++ toString 500) ∧
    ∃ e, staticFetch [AttemptOutcome.netError "t1", AttemptOutcome.netError "t2"] =
      Except.error e :=
  ⟨(claim_C7.1 ⟨200, "hi"⟩).1 (by norm_num),
   ((claim_C7.1 ⟨500, "x"⟩).2 (by norm_num)).2 (by decide),
   claim_C7.2 _ (by simp) (by
     intro o ho b
     simp only [List.mem_cons, List.not_mem_nil, or_false] at ho
     rcases ho with rfl | rfl <;> exact fun hc => Except.noConfusion hc)⟩

/-! ## C4: location resolution precedence -/

theorem chain_eq_firstHit (o1 o2 o3 o4 o5 : Option LocationRow) :
    (match o1 with
     | some loc => some loc
     | none =>
       match o2 with
       | some loc => some loc
       | none =>
         match o3 with
         | some loc => some loc
         | none =>
           match o4 with
           | some loc => some loc
           | none => o5)
      = firstHit [fun _ => o1, fun _ => o2, fun _ => o3, fun _ => o4, fun _ => o5] := by
  cases o1 <;> cases o2 <;> cases o3 <;> cases o4 <;> cases o5 <;> rfl

/-- Counterexample for C4: "Vaughan, Main" and "VAUGHAN, MAIN" differ
only in letter case, yet from the same initial state (one default
location, nothing else cached) the first resolves to an auto-created
Location (id 2) while the second falls through to the default (id 1):
the comma-branch town is taken verbatim and the auto-creation membership
test `town_name in KNOWN_TOWNS` is case-sensitive. -/
theorem claim_C4_counterexample :
    lowerStr "Vaughan, Main" = lowerStr "VAUGHAN, MAIN" ∧
    (process_schedule_entry 0 1 7
      { config := { name := "SexyFriendsToronto", shortName := "SFT" },
        store := { locations := [{ id := 1, sourceId := 1, town := "toronto",
                                   location := "default", isDefault := true }],
                   nextLocationId := 2 },
        result := { source := "SFT", startedAt := 0 } }
      { dayOfWeek := some "Monday",
        location := some "Vaughan, Main" }).store.schedules.map (fun r => r.locationId)
      = [some 2] ∧
    (process_schedule_entry 0 1 7
      { config := { name := "SexyFriendsToronto", shortName := "SFT" },
        store := { locations := [{ id := 1, sourceId := 1, town := "toronto",
                                   location := "default", isDefault := true }],
                   nextLocationId := 2 },
        result := { source := "SFT", startedAt := 0 } }
      { dayOfWeek := some "Monday",
        location := some "VAUGHAN, MAIN" }).store.schedules.map (fun r => r.locationId)
      = [some 1] :=
  ⟨by decide, by decide, by decide⟩

/-- C4 (amended): the cache lookup tries exactly the five strategies in
the spec's precedence order with the source's guards (normalized detail
only when nonempty and different from the raw detail; the unknown-detail,
town-only and partial strategies only for a nonempty town), stopping at
the first hit; on a complete miss, a nonempty (town, detail) pair whose
town is — case-sensitively — a known town is auto-created for the SFT
source rather than defaulted, and any other miss falls through to the
source's default Location.  The spec's concrete pair
"Downtown Richmond-Peter" / "downtown richmond-peter" does resolve to
the same Location id (the fallback parser canonicalizes the town's
case), but case-insensitivity does not hold in general (see the
counterexample). -/
theorem claim_C4 (cache : LocCache) (townName locationDetail : String)
    (normalized : Option String) (shortName : String) (sourceId : Nat) (store : Store) :
    find_location_in_cache cache townName locationDetail normalized
      = findLocationSpec cache townName locationDetail normalized ∧
    (find_location_in_cache cache townName locationDetail normalized = none →
      townName ≠ "" → locationDetail ≠ "" → KNOWN_TOWNS.contains townName = true →
      (resolve_location_from_parsed "SFT" sourceId townName locationDetail normalized
          store cache).1
        = some { id := store.nextLocationId, sourceId := sourceId,
                 town := townName, location := locationDetail, isDefault := false }) ∧
    (find_location_in_cache cache townName locationDetail normalized = none →
      ¬(townName ≠ "" ∧ locationDetail ≠ "" ∧ shortName = "SFT" ∧
        KNOWN_TOWNS.contains townName) →
      (resolve_location_from_parsed shortName sourceId townName locationDetail normalized
          store cache).1 = get_default_location cache) ∧
    (process_schedule_entry 0 1 7
      { config := { name := "SexyFriendsToronto", shortName := "SFT" },
        store := { locations := [{ id := 1, sourceId := 1, town := "toronto",
                                   location := "default", isDefault := true }],
                   nextLocationId := 2 },
        result := { source := "SFT", startedAt := 0 } }
      { dayOfWeek := some "Monday",
        location := some "Downtown Richmond-Peter" }).store.schedules.map
        (fun r => r.locationId)
      = [some 2] ∧
    (process_schedule_entry 0 1 7
      { config := { name := "SexyFriendsToronto", shortName := "SFT" },
        store := { locations := [{ id := 1, sourceId := 1, town := "toronto",
                                   location := "default", isDefault := true }],
                   nextLocationId := 2 },
        result := { source := "SFT", startedAt := 0 } }
      { dayOfWeek := some "Monday",
        location := some "downtown richmond-peter" }).store.schedules.map
        (fun r => r.locationId)
      = [some 2] := by
  refine ⟨?_, ?_, ?_, by decide, by decide⟩
  · unfold find_location_in_cache findLocationSpec
    dsimp only
    exact chain_eq_firstHit _ _ _ _ _
  · intro hmiss ht hd htown
    unfold resolve_location_from_parsed
    rw [hmiss]
    dsimp only
    rw [if_pos ⟨ht, hd, rfl, htown⟩]
  · intro hmiss hcond
    unfold resolve_location_from_parsed
    rw [hmiss]
    dsimp only
    rw [if_neg hcond]

/-- Witness for C4: an unrecognized detail "Main" under the known town
"Vaughan" (SFT source, cache holding only a default location) is
auto-created with the next location id, not defaulted. -/
theorem claim_C4_witness :
    (resolve_location_from_parsed "SFT" 1 "Vaughan" "Main"
        (normalize_location_detail "Main")
        { locations := [{ id := 1, sourceId := 1, town := "toronto",
                          location := "default", isDefault := true }],
          nextLocationId := 2 }
        (load_location_cache [{ id := 1, sourceId := 1, town := "toronto",
                                location := "default", isDefault := true }])).1
      = some { id := 2, sourceId := 1, town := "Vaughan", location := "Main",
               isDefault := false } :=
  (claim_C4 (load_location_cache [{ id := 1, sourceId := 1, town := "toronto",
                                    location := "default", isDefault := true }])
    "Vaughan" "Main" (normalize_location_detail "Main") "SFT" 1
    { locations := [{ id := 1, sourceId := 1, town := "toronto",
                      location := "default", isDefault := true }],
      nextLocationId := 2 }).2.1
    (by decide) (by decide) (by decide) (by decide)

end ESearch
